import Mathlib

/-!
# A shallow embedding of the 6502 skeleton emulator (`src/main.cpp`)

`Byte`, `Word` and `u32` values are natural numbers; every place where the C++
code narrows a value to one of these types carries an explicit `% 2 ^ w`.
The array `Mem::Data` is a function from indices to bytes, and every indexing
expression of the source is bounds-checked against `MAX_MEM`: an index outside
the array (undefined behaviour in C++) is the result `none`.
`Mem.WriteWordUnchecked` and `CPU.ExecuteOneUnchecked` are the same statements with the two
stores of `Mem::WriteWord` executed without that check: a store at an index at or above
`MAX_MEM` then lands in a cell of `Data` behind the array, which the registers and the cycle
counter do not share.
The `printf` of the default case of `CPU::Execute` is not modelled.
-/

namespace CPU6502

/-! ## Machine integers -/

/-- Number of values of `Byte` (`unsigned char`). -/
def BYTE : Nat := 256

/-- Number of values of `Word` (`unsigned short`). -/
def WORD : Nat := 65536

/-- Number of values of `u32` (`unsigned int`). -/
def U32 : Nat := 4294967296

/-- Subtraction `c - n` on `u32`, for `n ≤ 2 ^ 32`: the result wraps modulo `2 ^ 32`. -/
def subU32 (c n : Nat) : Nat := (c + (U32 - n)) % U32

/-! ## `struct Mem` -/

/-- Constant `Mem::MAX_MEM`. -/
def MAX_MEM : Nat := 1024 * 64

/-- The `struct Mem`: its only member is the array `Data`. Indices at or above `MAX_MEM`
are outside the array; the checked accessors below never look at them. -/
structure Mem where
  Data : Nat → Nat

/-- Raw array store `Data[Address] = Value` at an index known to be inside the array. -/
def Mem.set (m : Mem) (Address Value : Nat) : Mem :=
  ⟨fun i => if i = Address then Value else m.Data i⟩

/-- The loop of `Mem::Initialise` after `n` iterations: `Data[0]`, ..., `Data[n - 1]`
have been set to `0`, in this order. -/
def Mem.InitialiseLoop (m : Mem) : Nat → Mem
  | 0 => m
  | n + 1 => (m.InitialiseLoop n).set n 0

/-- The method `Mem::Initialise`: the loop runs for `i = 0 .. MAX_MEM - 1`. -/
def Mem.Initialise (m : Mem) : Mem := m.InitialiseLoop MAX_MEM

/-- The reading `operator[]`: `Data[Address]`, `none` when the index is outside the array. -/
def Mem.read (m : Mem) (Address : Nat) : Option Nat :=
  if Address < MAX_MEM then some (m.Data Address) else none

/-- The writing `operator[]` followed by an assignment, `mem[Address] = Value`:
`none` when the index is outside the array. -/
def Mem.write (m : Mem) (Address Value : Nat) : Option Mem :=
  if Address < MAX_MEM then some (m.set Address Value) else none

/-- The method `Mem::WriteWord(Value, Address, Cycles)`: returns the memory and the cycle
counter. `Value` is a `Word`, `Address` a `u32`, so `Address + 1` is computed in `u32`. -/
def Mem.WriteWord (m : Mem) (Value Address Cycles : Nat) : Option (Mem × Nat) :=
  match m.write Address ((Value &&& 0xff) % BYTE) with
  | none => none
  | some m1 =>
    match m1.write ((Address + 1) % U32) ((Value >>> 8) % BYTE) with
    | none => none
    | some m2 => some (m2, subU32 Cycles 2)

/-- Every cell of the array holds a `Byte`. -/
def Mem.WF (m : Mem) : Prop := ∀ i, i < MAX_MEM → m.Data i < BYTE

/-! ## `struct CPU` -/

/-- The `struct CPU`: registers and the seven one-bit status flags. -/
structure CPU where
  PC : Nat
  SP : Nat
  A : Nat
  X : Nat
  Y : Nat
  C : Nat
  Z : Nat
  I : Nat
  D : Nat
  B : Nat
  V : Nat
  N : Nat

/-- Every field holds a value of its C++ type: `PC`, `SP` are `Word`, `A`, `X`, `Y` are `Byte`,
the flags are one-bit fields. -/
def CPU.WF (cpu : CPU) : Prop :=
  cpu.PC < WORD ∧ cpu.SP < WORD ∧ cpu.A < BYTE ∧ cpu.X < BYTE ∧ cpu.Y < BYTE ∧
  cpu.C < 2 ∧ cpu.Z < 2 ∧ cpu.I < 2 ∧ cpu.D < 2 ∧ cpu.B < 2 ∧ cpu.V < 2 ∧ cpu.N < 2

instance (cpu : CPU) : Decidable cpu.WF := by
  unfold CPU.WF; infer_instance

/-- The loop state of `CPU::Execute`: the CPU, the cycle counter and the memory. -/
structure Machine where
  cpu : CPU
  Cycles : Nat
  memory : Mem

/-- The method `CPU::Reset`: `D = A = X = Y = C = Z = I = 0`, then the memory is initialised. -/
def CPU.Reset (cpu : CPU) (memory : Mem) : CPU × Mem :=
  ({ cpu with PC := 0xFFFC, SP := 0x0100, D := 0, A := 0, X := 0, Y := 0, C := 0, Z := 0, I := 0 },
   memory.Initialise)

/-- The method `CPU::FetchByte`: returns the byte, the CPU (with `PC++` on a `Word`) and the
cycle counter (with `Cycles--` on a `u32`). -/
def CPU.FetchByte (cpu : CPU) (Cycles : Nat) (memory : Mem) : Option (Nat × CPU × Nat) :=
  match memory.read cpu.PC with
  | none => none
  | some Data => some (Data, { cpu with PC := (cpu.PC + 1) % WORD }, subU32 Cycles 1)

/-- The method `CPU::FetchWord`: little endian, the low byte first. -/
def CPU.FetchWord (cpu : CPU) (Cycles : Nat) (memory : Mem) : Option (Nat × CPU × Nat) :=
  match memory.read cpu.PC with
  | none => none
  | some lo =>
    let Data := lo
    let cpu1 := { cpu with PC := (cpu.PC + 1) % WORD }
    let Cycles1 := subU32 Cycles 1
    match memory.read cpu1.PC with
    | none => none
    | some hi =>
      let Data := (Data ||| (hi <<< 8)) % WORD
      let cpu2 := { cpu1 with PC := (cpu1.PC + 1) % WORD }
      let Cycles2 := subU32 Cycles1 1
      some (Data, cpu2, Cycles2)

/-- The method `CPU::ReadByte`: the address is a `Byte`; the CPU is not changed. -/
def CPU.ReadByte (Cycles : Nat) (Address : Nat) (memory : Mem) : Option (Nat × Nat) :=
  match memory.read Address with
  | none => none
  | some Data => some (Data, subU32 Cycles 1)

/-- Opcode of load accumulator, immediate. -/
def INS_LDA_IM : Nat := 0xA9
/-- Opcode of load accumulator, zero page. -/
def INS_LDA_ZP : Nat := 0xA5
/-- Opcode of load accumulator, zero page indexed by `X`. -/
def INS_LDA_ZPX : Nat := 0xB5
/-- Opcode of jump to subroutine. -/
def INS_JSR : Nat := 0x20

/-- The method `CPU::LDASetStatus`: `Z = (A == 0)`, `N = (A & 0b10000000) > 0`. -/
def CPU.LDASetStatus (cpu : CPU) : CPU :=
  { cpu with Z := if cpu.A = 0 then 1 else 0,
             N := if (cpu.A &&& 0b10000000) > 0 then 1 else 0 }

/-- The body of the `while` loop of `CPU::Execute`: one instruction, opcode fetch included. -/
def CPU.ExecuteOne (cpu : CPU) (Cycles : Nat) (memory : Mem) : Option Machine :=
  match cpu.FetchByte Cycles memory with
  | none => none
  | some (Ins, cpu, Cycles) =>
    if Ins = INS_LDA_IM then
      match cpu.FetchByte Cycles memory with
      | none => none
      | some (Value, cpu, Cycles) =>
        some ⟨({ cpu with A := Value }).LDASetStatus, Cycles, memory⟩
    else if Ins = INS_LDA_ZP then
      match cpu.FetchByte Cycles memory with
      | none => none
      | some (ZeroPageAddress, cpu, Cycles) =>
        match CPU.ReadByte Cycles ZeroPageAddress memory with
        | none => none
        | some (Data, Cycles) =>
          some ⟨({ cpu with A := Data }).LDASetStatus, Cycles, memory⟩
    else if Ins = INS_LDA_ZPX then
      match cpu.FetchByte Cycles memory with
      | none => none
      | some (ZeroPageAddress, cpu, Cycles) =>
        let ZeroPageAddress := (ZeroPageAddress + cpu.X) % BYTE
        let Cycles := subU32 Cycles 1
        match CPU.ReadByte Cycles ZeroPageAddress memory with
        | none => none
        | some (Data, Cycles) =>
          some ⟨({ cpu with A := Data }).LDASetStatus, Cycles, memory⟩
    else if Ins = INS_JSR then
      match cpu.FetchWord Cycles memory with
      | none => none
      | some (SubAdr, cpu, Cycles) =>
        match memory.WriteWord ((cpu.PC + (WORD - 1)) % WORD) cpu.SP Cycles with
        | none => none
        | some (memory, Cycles) =>
          some ⟨{ cpu with PC := SubAdr }, subU32 Cycles 1, memory⟩
    else
      some ⟨cpu, Cycles, memory⟩

/-- The method `Mem::WriteWord(Value, Address, Cycles)` with both stores executed as they
stand in the source, `Data[Address] = Value & 0xff; Data[Address + 1] = (Value >> 8);
Cycles -= 2;`, without a bounds check: a store at an index at or above `MAX_MEM` changes a cell
behind the array. -/
def Mem.WriteWordUnchecked (m : Mem) (Value Address Cycles : Nat) : Mem × Nat :=
  ((m.set Address ((Value &&& 0xff) % BYTE)).set ((Address + 1) % U32) ((Value >>> 8) % BYTE),
   subU32 Cycles 2)

/-- The body of the `while` loop of `CPU::Execute` with the stores of `Mem::WriteWord`
unchecked: the same statements as `CPU.ExecuteOne`, the JSR case calling
`Mem.WriteWordUnchecked`. -/
def CPU.ExecuteOneUnchecked (cpu : CPU) (Cycles : Nat) (memory : Mem) : Option Machine :=
  match cpu.FetchByte Cycles memory with
  | none => none
  | some (Ins, cpu, Cycles) =>
    if Ins = INS_LDA_IM then
      match cpu.FetchByte Cycles memory with
      | none => none
      | some (Value, cpu, Cycles) =>
        some ⟨({ cpu with A := Value }).LDASetStatus, Cycles, memory⟩
    else if Ins = INS_LDA_ZP then
      match cpu.FetchByte Cycles memory with
      | none => none
      | some (ZeroPageAddress, cpu, Cycles) =>
        match CPU.ReadByte Cycles ZeroPageAddress memory with
        | none => none
        | some (Data, Cycles) =>
          some ⟨({ cpu with A := Data }).LDASetStatus, Cycles, memory⟩
    else if Ins = INS_LDA_ZPX then
      match cpu.FetchByte Cycles memory with
      | none => none
      | some (ZeroPageAddress, cpu, Cycles) =>
        let ZeroPageAddress := (ZeroPageAddress + cpu.X) % BYTE
        let Cycles := subU32 Cycles 1
        match CPU.ReadByte Cycles ZeroPageAddress memory with
        | none => none
        | some (Data, Cycles) =>
          some ⟨({ cpu with A := Data }).LDASetStatus, Cycles, memory⟩
    else if Ins = INS_JSR then
      match cpu.FetchWord Cycles memory with
      | none => none
      | some (SubAdr, cpu, Cycles) =>
        match memory.WriteWordUnchecked ((cpu.PC + (WORD - 1)) % WORD) cpu.SP Cycles with
        | (memory, Cycles) =>
          some ⟨{ cpu with PC := SubAdr }, subU32 Cycles 1, memory⟩
    else
      some ⟨cpu, Cycles, memory⟩

/-- Outcome of running the loop of `CPU::Execute` with a bound on the number of iterations. -/
inductive Run where
  /-- The loop ended (`Cycles` reached `0`) after `count` instructions. -/
  | halted (count : Nat) (cpu : CPU) (memory : Mem)
  /-- An instruction indexed `Data` outside the array. -/
  | fault
  /-- The bound was reached with `Cycles > 0`: the loop is still running. -/
  | running (st : Machine)

/-- The loop `while (Cycles > 0)` of `CPU::Execute`, run for at most `fuel` instructions;
`count` is the number of instructions already executed. -/
def CPU.ExecuteLoop : Nat → Nat → CPU → Nat → Mem → Run
  | 0, count, cpu, Cycles, memory =>
    if Cycles > 0 then .running ⟨cpu, Cycles, memory⟩ else .halted count cpu memory
  | fuel + 1, count, cpu, Cycles, memory =>
    if Cycles > 0 then
      match cpu.ExecuteOne Cycles memory with
      | none => .fault
      | some st => CPU.ExecuteLoop fuel (count + 1) st.cpu st.Cycles st.memory
    else .halted count cpu memory

/-- The method `CPU::Execute(Cycles, memory)`, run for at most `fuel` instructions. -/
def CPU.Execute (fuel : Nat) (cpu : CPU) (Cycles : Nat) (memory : Mem) : Run :=
  CPU.ExecuteLoop fuel 0 cpu Cycles memory

/-! ## The programs of `main` -/

/-- The first program of `main` (immediate load, two cycles), from any contents of the
uninitialised `cpu` and `mem`: `cpu.Reset(mem)`, then two stores inside the array. -/
def mainLoadImmediate (cpu : CPU) (mem : Mem) : CPU × Mem :=
  let r := cpu.Reset mem
  (r.1, (r.2.set 0xFFFC INS_LDA_IM).set 0xFFFD 0x42)

/-- The second program of `main` (zero page load, three cycles). -/
def mainLoadZeroPage (cpu : CPU) (mem : Mem) : CPU × Mem :=
  let r := cpu.Reset mem
  (r.1, ((r.2.set 0xFFFC INS_LDA_ZP).set 0xFFFD 0x42).set 0x0042 0x84)

/-- The third program of `main` (jump to subroutine, then an immediate load). -/
def mainJumpToSubroutine (cpu : CPU) (mem : Mem) : CPU × Mem :=
  let r := cpu.Reset mem
  (r.1, ((((r.2.set 0xFFFC INS_JSR).set 0xFFFD 0x42).set 0xFFFE 0x42).set 0x4242
    INS_LDA_IM).set 0x4243 0x84)

/-- A program in the style of `main` for the zero page indexed load, which `main` does not
exercise: reset, set `X`, then `LDA $FF,X` with a byte at the wrapped address. -/
def demoLoadZeroPageX (cpu : CPU) (mem : Mem) : CPU × Mem :=
  let r := cpu.Reset mem
  ({ r.1 with X := 0x02 }, ((r.2.set 0xFFFC INS_LDA_ZPX).set 0xFFFD 0xFF).set 0x0001 0x84)

/-- The scenario of entering at `0x4242`: the memory of the third program of `main`, which
holds `LDA #$84` at `0x4242`, with the reset CPU whose `PC` is that entry address. -/
def entryAt4242 (cpu : CPU) (mem : Mem) : CPU × Mem :=
  let r := mainJumpToSubroutine cpu mem
  ({ r.1 with PC := 0x4242 }, r.2)

/-- The third program of `main` with any subroutine address `t` and loaded byte `v` in place
of `0x4242` and `0x84`: `JSR t` at `0xFFFC`, `LDA #v` at `t`. -/
def jsrProgram (cpu : CPU) (mem : Mem) (t v : Nat) : CPU × Mem :=
  let r := cpu.Reset mem
  (r.1, ((((r.2.set 0xFFFC INS_JSR).set 0xFFFD (t % 256)).set 0xFFFE (t / 256)).set t
    INS_LDA_IM).set (t + 1) v)

/-- A program in the style of `main`: after the reset, a JSR at `0xFFFC` whose target is
`0xFFFC` itself. -/
def jsrSelfLoop (cpu : CPU) (mem : Mem) : CPU × Mem :=
  let r := cpu.Reset mem
  (r.1, ((r.2.set 0xFFFC INS_JSR).set 0xFFFD 0xFC).set 0xFFFE 0xFF)

/-- The states met when running from a reset CPU on the memory `m0`: `PC` is a `Word`, `SP` is
still `0x0100`, every cell holds a `Byte`, and only the cells `0x0100` and `0x0101` may differ
from `m0`. -/
def StackAt0100 (m0 : Mem) (cpu : CPU) (memory : Mem) : Prop :=
  cpu.PC < WORD ∧ cpu.SP = 0x0100 ∧ memory.WF ∧
  ∀ i, i ≠ 0x0100 → i ≠ 0x0101 → memory.Data i = m0.Data i

/-- Sample contents of the uninitialised `CPU cpu` of `main`: every flag set. -/
def staleCPU : CPU := ⟨0x1234, 0x01FF, 0x5A, 0x03, 0x07, 1, 1, 1, 1, 1, 1, 1⟩

/-- Sample contents of the uninitialised `Mem mem` of `main`. -/
def staleMem : Mem := ⟨fun i => (7 * i + 1) % 256⟩

/-! ## Arithmetic of bytes and words -/

theorem and_128_pos_iff (x : Nat) : 0 < (x &&& 128) ↔ x / 128 % 2 = 1 := by
  have h7 : x.testBit 7 = decide (x / 128 % 2 = 1) := by
    simpa using (Nat.testBit_to_div_mod (x := x) (i := 7))
  constructor
  · intro h
    by_contra hne
    have hx : x.testBit 7 = false := by simpa [hne] using h7
    have : x &&& 128 = 0 := by
      apply Nat.eq_of_testBit_eq
      intro i
      have h128 : (128 : Nat).testBit i = decide (7 = i) := by
        simpa using (Nat.testBit_two_pow (n := 7) (m := i))
      rw [Nat.testBit_and, h128]
      by_cases hi : 7 = i
      · subst hi; simp [hx]
      · simp [hi]
    omega
  · intro h
    have hx : x.testBit 7 = true := by simpa [h] using h7
    have h128 : (128 : Nat).testBit 7 = true := by decide
    have : (x &&& 128).testBit 7 = true := by rw [Nat.testBit_and, hx, h128]; rfl
    by_contra hz
    have : x &&& 128 = 0 := by omega
    simp_all

theorem negative_bit (v : Nat) : (if (v &&& 0b10000000) > 0 then 1 else 0) = v / 128 % 2 := by
  have h := and_128_pos_iff v
  by_cases hp : 0 < (v &&& 128)
  · have h1 := h.mp hp
    simp only [gt_iff_lt]
    rw [if_pos hp, h1]
  · have h1 : ¬ (v / 128 % 2 = 1) := fun hh => hp (h.mpr hh)
    simp only [gt_iff_lt]
    rw [if_neg hp]
    omega

theorem lor_shift8 (lo hi : Nat) (hlo : lo < 256) : lo ||| (hi <<< 8) = lo + 256 * hi := by
  have := Nat.mul_add_lt_is_or (i := 8) (b := lo) (by simpa using hlo) hi
  rw [Nat.shiftLeft_eq, Nat.lor_comm, Nat.mul_comm hi]
  norm_num at this ⊢
  omega

theorem and_ff (v : Nat) : v &&& 0xff = v % 256 := by
  simpa using Nat.and_pow_two_sub_one_eq_mod v 8

theorem shr8 (v : Nat) : v >>> 8 = v / 256 := by
  simpa using Nat.shiftRight_eq_div_pow v 8

/-! ## Memory lemmas -/

theorem Mem.set_Data (m : Mem) (a v i : Nat) :
    (m.set a v).Data i = if i = a then v else m.Data i := rfl

theorem Mem.InitialiseLoop_Data (m : Mem) (n i : Nat) :
    (m.InitialiseLoop n).Data i = if i < n then 0 else m.Data i := by
  induction n with
  | zero => simp [Mem.InitialiseLoop]
  | succ k ih =>
    simp only [Mem.InitialiseLoop, Mem.set_Data, ih]
    by_cases h1 : i = k
    · subst h1; simp
    · by_cases h2 : i < k
      · have : i < k + 1 := by omega
        simp [h1, h2, this]
      · have : ¬ i < k + 1 := by omega
        simp [h1, h2, this]

theorem Mem.Initialise_Data (m : Mem) (i : Nat) :
    (m.Initialise).Data i = if i < MAX_MEM then 0 else m.Data i :=
  Mem.InitialiseLoop_Data m MAX_MEM i

theorem Mem.read_of_lt (m : Mem) (a : Nat) (h : a < MAX_MEM) : m.read a = some (m.Data a) := by
  simp [Mem.read, h]

theorem Mem.lt_of_read (m : Mem) (a v : Nat) (h : m.read a = some v) :
    a < MAX_MEM ∧ m.Data a = v := by
  unfold Mem.read at h
  by_cases ha : a < MAX_MEM
  · rw [if_pos ha] at h
    exact ⟨ha, Option.some.inj h⟩
  · rw [if_neg ha] at h
    exact absurd h (by simp)

theorem Mem.read_succ_word (m : Mem) (p : Nat) :
    m.read ((p + 1) % WORD) = some (m.Data ((p + 1) % WORD)) := by
  apply Mem.read_of_lt
  have : (p + 1) % WORD < WORD := Nat.mod_lt _ (by decide)
  simpa [MAX_MEM, WORD] using this

theorem Mem.Initialise_WF (m : Mem) : (m.Initialise).WF := by
  intro i hi
  rw [Mem.Initialise_Data, if_pos hi]
  decide

theorem Mem.set_WF (m : Mem) (a v : Nat) (hm : m.WF) (hv : v < BYTE) : (m.set a v).WF := by
  intro i hi
  rw [Mem.set_Data]
  by_cases h : i = a
  · rw [if_pos h]; exact hv
  · rw [if_neg h]; exact hm i hi

/-! ## One instruction -/

theorem subU32_one_one (c : Nat) : subU32 (subU32 c 1) 1 = subU32 c 2 := by
  unfold subU32 U32; omega

theorem subU32_two_one (c : Nat) : subU32 (subU32 c 2) 1 = subU32 c 3 := by
  unfold subU32 U32; omega

theorem subU32_three_one (c : Nat) : subU32 (subU32 c 3) 1 = subU32 c 4 := by
  unfold subU32 U32; omega

theorem ExecuteOne_LDA_IM (cpu : CPU) (Cycles : Nat) (memory : Mem)
    (hop : memory.read cpu.PC = some INS_LDA_IM) :
    cpu.ExecuteOne Cycles memory =
      some ⟨({ cpu with PC := ((cpu.PC + 1) % WORD + 1) % WORD,
                        A := memory.Data ((cpu.PC + 1) % WORD) }).LDASetStatus,
            subU32 Cycles 2, memory⟩ := by
  simp [CPU.ExecuteOne, CPU.FetchByte, hop, Mem.read_succ_word, subU32_one_one]

theorem ExecuteOne_LDA_ZP (cpu : CPU) (Cycles : Nat) (memory : Mem)
    (hop : memory.read cpu.PC = some INS_LDA_ZP)
    (hzp : memory.Data ((cpu.PC + 1) % WORD) < MAX_MEM) :
    cpu.ExecuteOne Cycles memory =
      some ⟨({ cpu with PC := ((cpu.PC + 1) % WORD + 1) % WORD,
                        A := memory.Data (memory.Data ((cpu.PC + 1) % WORD)) }).LDASetStatus,
            subU32 Cycles 3, memory⟩ := by
  simp [CPU.ExecuteOne, CPU.FetchByte, CPU.ReadByte, hop, Mem.read_succ_word,
    Mem.read_of_lt _ _ hzp, subU32_one_one, subU32_two_one, INS_LDA_ZP, INS_LDA_IM]

theorem ExecuteOne_LDA_ZPX (cpu : CPU) (Cycles : Nat) (memory : Mem)
    (hop : memory.read cpu.PC = some INS_LDA_ZPX) :
    cpu.ExecuteOne Cycles memory =
      some ⟨({ cpu with PC := ((cpu.PC + 1) % WORD + 1) % WORD,
                        A := memory.Data ((memory.Data ((cpu.PC + 1) % WORD) + cpu.X) % BYTE)
                      }).LDASetStatus,
            subU32 Cycles 4, memory⟩ := by
  have hlt : (memory.Data ((cpu.PC + 1) % WORD) + cpu.X) % BYTE < MAX_MEM := by
    have : (memory.Data ((cpu.PC + 1) % WORD) + cpu.X) % BYTE < BYTE := Nat.mod_lt _ (by decide)
    have hb : BYTE ≤ MAX_MEM := by decide
    omega
  simp [CPU.ExecuteOne, CPU.FetchByte, CPU.ReadByte, hop, Mem.read_succ_word,
    Mem.read_of_lt _ _ hlt, subU32_one_one, subU32_two_one, subU32_three_one,
    INS_LDA_ZP, INS_LDA_IM, INS_LDA_ZPX]

/-! ## Reads of the programs of `main` -/

theorem mainLoadImmediate_read :
    (mainLoadImmediate staleCPU staleMem).2.read (mainLoadImmediate staleCPU staleMem).1.PC
        = some INS_LDA_IM ∧
      (mainLoadImmediate staleCPU staleMem).2.read
        (((mainLoadImmediate staleCPU staleMem).1.PC + 1) % WORD) = some 0x42 := by
  constructor <;> decide

theorem mainLoadZeroPage_read :
    (mainLoadZeroPage staleCPU staleMem).2.read (mainLoadZeroPage staleCPU staleMem).1.PC
        = some INS_LDA_ZP ∧
      (mainLoadZeroPage staleCPU staleMem).2.read
        (((mainLoadZeroPage staleCPU staleMem).1.PC + 1) % WORD) = some 0x42 ∧
      (mainLoadZeroPage staleCPU staleMem).2.read 0x42 = some 0x84 := by
  refine ⟨?_, ?_, ?_⟩ <;> decide

theorem demoLoadZeroPageX_read :
    (demoLoadZeroPageX staleCPU staleMem).2.read (demoLoadZeroPageX staleCPU staleMem).1.PC
        = some INS_LDA_ZPX ∧
      (demoLoadZeroPageX staleCPU staleMem).2.read
        (((demoLoadZeroPageX staleCPU staleMem).1.PC + 1) % WORD) = some 0xFF ∧
      (demoLoadZeroPageX staleCPU staleMem).2.read
        ((0xFF + (demoLoadZeroPageX staleCPU staleMem).1.X) % BYTE) = some 0x84 := by
  refine ⟨?_, ?_, ?_⟩ <;> decide

theorem mainLoadImmediate_WF (cpu : CPU) (mem : Mem) : (mainLoadImmediate cpu mem).2.WF := by
  unfold mainLoadImmediate
  exact Mem.set_WF _ _ _ (Mem.set_WF _ _ _ (Mem.Initialise_WF _) (by decide)) (by decide)

theorem mainLoadZeroPage_WF (cpu : CPU) (mem : Mem) : (mainLoadZeroPage cpu mem).2.WF := by
  unfold mainLoadZeroPage
  exact Mem.set_WF _ _ _ (Mem.set_WF _ _ _ (Mem.set_WF _ _ _ (Mem.Initialise_WF _) (by decide))
    (by decide)) (by decide)

theorem demoLoadZeroPageX_WF (cpu : CPU) (mem : Mem) : (demoLoadZeroPageX cpu mem).2.WF := by
  unfold demoLoadZeroPageX
  exact Mem.set_WF _ _ _ (Mem.set_WF _ _ _ (Mem.set_WF _ _ _ (Mem.Initialise_WF _) (by decide))
    (by decide)) (by decide)

/-! ## The load instructions -/

/-- C1: for every CPU state, cycle counter and memory, one LDA instruction (immediate `0xA9`,
zero page `0xA5` or zero page X `0xB5`) whose operand resolves to the byte `v` completes and
leaves `A = v`, the Zero flag `1` exactly when `v = 0` (and `0` otherwise), and the Negative
flag equal to bit 7 of `v`. Here `b` is the operand byte after the opcode: the value itself
(immediate), the address of `v` (zero page), or the base of the address `(b + X) mod 256`
of `v` (zero page X). -/
theorem lda_sets_A_zero_negative (cpu : CPU) (Cycles : Nat) (memory : Mem) (b v : Nat)
    (hb : memory.read ((cpu.PC + 1) % WORD) = some b)
    (h : (memory.read cpu.PC = some INS_LDA_IM ∧ b = v) ∨
         (memory.read cpu.PC = some INS_LDA_ZP ∧ memory.read b = some v) ∨
         (memory.read cpu.PC = some INS_LDA_ZPX ∧ memory.read ((b + cpu.X) % BYTE) = some v)) :
    ∃ st, cpu.ExecuteOne Cycles memory = some st ∧ st.cpu.A = v ∧
      st.cpu.Z = (if v = 0 then 1 else 0) ∧ st.cpu.N = v / 128 % 2 := by
  have hbd := (Mem.lt_of_read _ _ _ hb).2
  rcases h with ⟨hop, hv⟩ | ⟨hop, hv⟩ | ⟨hop, hv⟩
  · refine ⟨_, ExecuteOne_LDA_IM cpu Cycles memory hop, ?_, ?_, ?_⟩
    · simp [CPU.LDASetStatus, hbd, hv]
    · simp [CPU.LDASetStatus, hbd, hv]
    · simp only [CPU.LDASetStatus, hbd, hv]
      exact negative_bit v
  · have hvd := Mem.lt_of_read _ _ _ hv
    refine ⟨_, ExecuteOne_LDA_ZP cpu Cycles memory hop (by rw [hbd]; exact hvd.1), ?_, ?_, ?_⟩
    · simp [CPU.LDASetStatus, hbd, hvd.2]
    · simp [CPU.LDASetStatus, hbd, hvd.2]
    · simp only [CPU.LDASetStatus, hbd, hvd.2]
      exact negative_bit v
  · have hvd := Mem.lt_of_read _ _ _ hv
    refine ⟨_, ExecuteOne_LDA_ZPX cpu Cycles memory hop, ?_, ?_, ?_⟩
    · simp [CPU.LDASetStatus, hbd, hvd.2]
    · simp [CPU.LDASetStatus, hbd, hvd.2]
    · simp only [CPU.LDASetStatus, hbd, hvd.2]
      exact negative_bit v

/-- Witness of C1 on the three load programs: the immediate load of `main` gives `A = 0x42`,
`Z = 0`, `N = 0`; the zero page load of `main` and the zero page X load give `A = 0x84`,
`Z = 0`, `N = 1`. -/
theorem lda_sets_A_zero_negative_witness :
    (∃ st, (mainLoadImmediate staleCPU staleMem).1.ExecuteOne 2
        (mainLoadImmediate staleCPU staleMem).2 = some st ∧
      st.cpu.A = 0x42 ∧ st.cpu.Z = (if 0x42 = 0 then 1 else 0) ∧ st.cpu.N = 0x42 / 128 % 2) ∧
    (∃ st, (mainLoadZeroPage staleCPU staleMem).1.ExecuteOne 3
        (mainLoadZeroPage staleCPU staleMem).2 = some st ∧
      st.cpu.A = 0x84 ∧ st.cpu.Z = (if 0x84 = 0 then 1 else 0) ∧ st.cpu.N = 0x84 / 128 % 2) ∧
    (∃ st, (demoLoadZeroPageX staleCPU staleMem).1.ExecuteOne 4
        (demoLoadZeroPageX staleCPU staleMem).2 = some st ∧
      st.cpu.A = 0x84 ∧ st.cpu.Z = (if 0x84 = 0 then 1 else 0) ∧ st.cpu.N = 0x84 / 128 % 2) :=
  ⟨lda_sets_A_zero_negative _ 2 _ 0x42 0x42 mainLoadImmediate_read.2
      (Or.inl ⟨mainLoadImmediate_read.1, rfl⟩),
   lda_sets_A_zero_negative _ 3 _ 0x42 0x84 mainLoadZeroPage_read.2.1
      (Or.inr (Or.inl ⟨mainLoadZeroPage_read.1, mainLoadZeroPage_read.2.2⟩)),
   lda_sets_A_zero_negative _ 4 _ 0xFF 0x84 demoLoadZeroPageX_read.2.1
      (Or.inr (Or.inr ⟨demoLoadZeroPageX_read.1, demoLoadZeroPageX_read.2.2⟩))⟩

/-- C2: for every base byte `b` and every `X`, LDA zero page X (`0xB5`) with operand byte `b`
completes and loads `A` from the memory cell at address `(b + X) mod 256`; that address is
at most `0x00FF`, so the cell read is never outside the zero page. -/
theorem lda_zpx_reads_wrapped_zero_page (cpu : CPU) (Cycles : Nat) (memory : Mem) (b : Nat)
    (hop : memory.read cpu.PC = some INS_LDA_ZPX)
    (hb : memory.read ((cpu.PC + 1) % WORD) = some b) :
    ∃ st, cpu.ExecuteOne Cycles memory = some st ∧
      memory.read ((b + cpu.X) % 256) = some st.cpu.A ∧ (b + cpu.X) % 256 ≤ 0x00FF := by
  have hbd := (Mem.lt_of_read _ _ _ hb).2
  have hlt : (b + cpu.X) % 256 < 256 := Nat.mod_lt _ (by decide)
  refine ⟨_, ExecuteOne_LDA_ZPX cpu Cycles memory hop, ?_, by omega⟩
  rw [Mem.read_of_lt _ _ (by simp [MAX_MEM]; omega)]
  simp [CPU.LDASetStatus, hbd, BYTE]

/-- Witness of C2 with a wrapping sum: base `0xFF` and `X = 2` read address `0x0001`
(not `0x0101`), which holds `0x84`. -/
theorem lda_zpx_reads_wrapped_zero_page_witness :
    (demoLoadZeroPageX staleCPU staleMem).1.X = 2 ∧
    ∃ st, (demoLoadZeroPageX staleCPU staleMem).1.ExecuteOne 4
        (demoLoadZeroPageX staleCPU staleMem).2 = some st ∧
      (demoLoadZeroPageX staleCPU staleMem).2.read 0x0001 = some st.cpu.A ∧
      st.cpu.A = 0x84 := by
  refine ⟨rfl, ?_⟩
  obtain ⟨st, h1, h2, _⟩ := lda_zpx_reads_wrapped_zero_page
    (demoLoadZeroPageX staleCPU staleMem).1 4 (demoLoadZeroPageX staleCPU staleMem).2 0xFF
    demoLoadZeroPageX_read.1 demoLoadZeroPageX_read.2.1
  refine ⟨st, h1, h2, ?_⟩
  have h3 : (demoLoadZeroPageX staleCPU staleMem).2.read 0x0001 = some 0x84 := by decide
  have h4 : (demoLoadZeroPageX staleCPU staleMem).2.read
      ((0xFF + (demoLoadZeroPageX staleCPU staleMem).1.X) % 256) = some 0x84 := h3
  rw [h4] at h2
  exact (Option.some.inj h2).symm

/-- C3: for every CPU state and memory, one instruction (opcode fetch included) takes `k`
from the `u32` cycle counter, with `k = 2` for LDA immediate (`0xA9`), `k = 3` for LDA zero
page (`0xA5`) and `k = 4` for LDA zero page X (`0xB5`): the new counter is `Cycles - k` modulo
`2 ^ 32`, which is `Cycles - k` itself whenever the counter holds at least `k`. -/
theorem lda_cycle_cost (cpu : CPU) (Cycles : Nat) (memory : Mem) (k : Nat)
    (hm : memory.WF) (hc : Cycles < U32)
    (h : (memory.read cpu.PC = some INS_LDA_IM ∧ k = 2) ∨
         (memory.read cpu.PC = some INS_LDA_ZP ∧ k = 3) ∨
         (memory.read cpu.PC = some INS_LDA_ZPX ∧ k = 4)) :
    ∃ st, cpu.ExecuteOne Cycles memory = some st ∧
      st.Cycles = (Cycles + (U32 - k)) % U32 ∧ (k ≤ Cycles → st.Cycles + k = Cycles) := by
  rcases h with ⟨hop, rfl⟩ | ⟨hop, rfl⟩ | ⟨hop, rfl⟩
  · refine ⟨_, ExecuteOne_LDA_IM cpu Cycles memory hop, rfl, ?_⟩
    intro hk
    show subU32 Cycles 2 + 2 = Cycles
    simp only [subU32, U32] at hc ⊢; omega
  · have hzp : memory.Data ((cpu.PC + 1) % WORD) < MAX_MEM := by
      have h1 : (cpu.PC + 1) % WORD < MAX_MEM := Nat.mod_lt _ (by decide)
      have h2 := hm _ h1
      have h3 : BYTE ≤ MAX_MEM := by decide
      omega
    refine ⟨_, ExecuteOne_LDA_ZP cpu Cycles memory hop hzp, rfl, ?_⟩
    intro hk
    show subU32 Cycles 3 + 3 = Cycles
    simp only [subU32, U32] at hc ⊢; omega
  · refine ⟨_, ExecuteOne_LDA_ZPX cpu Cycles memory hop, rfl, ?_⟩
    intro hk
    show subU32 Cycles 4 + 4 = Cycles
    simp only [subU32, U32] at hc ⊢; omega

/-- Witness of C3 on the freshly reset CPU with the program at `0xFFFC`: the immediate load of
`main` started with 2 cycles, the zero page load of `main` started with 3 and the zero page X
load started with 4 each leave the counter at `0`. -/
theorem lda_cycle_cost_witness :
    (∃ st, (mainLoadImmediate staleCPU staleMem).1.ExecuteOne 2
        (mainLoadImmediate staleCPU staleMem).2 = some st ∧ st.Cycles = 0) ∧
    (∃ st, (mainLoadZeroPage staleCPU staleMem).1.ExecuteOne 3
        (mainLoadZeroPage staleCPU staleMem).2 = some st ∧ st.Cycles = 0) ∧
    (∃ st, (demoLoadZeroPageX staleCPU staleMem).1.ExecuteOne 4
        (demoLoadZeroPageX staleCPU staleMem).2 = some st ∧ st.Cycles = 0) := by
  refine ⟨?_, ?_, ?_⟩
  · obtain ⟨st, h1, _, h3⟩ := lda_cycle_cost (mainLoadImmediate staleCPU staleMem).1 2
      (mainLoadImmediate staleCPU staleMem).2 2 (mainLoadImmediate_WF _ _) (by decide)
      (Or.inl ⟨mainLoadImmediate_read.1, rfl⟩)
    exact ⟨st, h1, by have := h3 (le_refl 2); omega⟩
  · obtain ⟨st, h1, _, h3⟩ := lda_cycle_cost (mainLoadZeroPage staleCPU staleMem).1 3
      (mainLoadZeroPage staleCPU staleMem).2 3 (mainLoadZeroPage_WF _ _) (by decide)
      (Or.inr (Or.inl ⟨mainLoadZeroPage_read.1, rfl⟩))
    exact ⟨st, h1, by have := h3 (le_refl 3); omega⟩
  · obtain ⟨st, h1, _, h3⟩ := lda_cycle_cost (demoLoadZeroPageX staleCPU staleMem).1 4
      (demoLoadZeroPageX staleCPU staleMem).2 4 (demoLoadZeroPageX_WF _ _) (by decide)
      (Or.inr (Or.inr ⟨demoLoadZeroPageX_read.1, rfl⟩))
    exact ⟨st, h1, by have := h3 (le_refl 4); omega⟩

/-! ## Jump to subroutine -/

theorem subU32_jsr (c : Nat) : subU32 (subU32 (subU32 (subU32 (subU32 c 1) 1) 1) 2) 1
    = subU32 c 6 := by
  unfold subU32 U32; omega

theorem Mem.WriteWord_of_lt (m : Mem) (Value Address Cycles : Nat) (h : Address + 1 < MAX_MEM) :
    m.WriteWord Value Address Cycles =
      some ((m.set Address ((Value &&& 0xff) % BYTE)).set (Address + 1) ((Value >>> 8) % BYTE),
        subU32 Cycles 2) := by
  have h1 : Address < MAX_MEM := by omega
  have h2 : (Address + 1) % U32 = Address + 1 := by
    apply Nat.mod_eq_of_lt
    have : MAX_MEM ≤ U32 := by decide
    omega
  simp [Mem.WriteWord, Mem.write, h1, h2, h]

theorem ExecuteOne_JSR (cpu : CPU) (Cycles : Nat) (memory : Mem)
    (hop : memory.read cpu.PC = some INS_JSR) (hsp : cpu.SP + 1 < MAX_MEM) :
    cpu.ExecuteOne Cycles memory =
      some ⟨{ cpu with PC := (memory.Data ((cpu.PC + 1) % WORD) |||
                (memory.Data (((cpu.PC + 1) % WORD + 1) % WORD) <<< 8)) % WORD },
            subU32 Cycles 6,
            (memory.set cpu.SP
              ((((((cpu.PC + 1) % WORD + 1) % WORD + 1) % WORD + (WORD - 1)) % WORD
                &&& 0xff) % BYTE)).set (cpu.SP + 1)
              (((((((cpu.PC + 1) % WORD + 1) % WORD + 1) % WORD + (WORD - 1)) % WORD)
                >>> 8) % BYTE)⟩ := by
  have h1 := Mem.read_succ_word memory cpu.PC
  have h2 := Mem.read_succ_word memory ((cpu.PC + 1) % WORD)
  have e1 : ¬ (INS_JSR = INS_LDA_IM) := by decide
  have e2 : ¬ (INS_JSR = INS_LDA_ZP) := by decide
  have e3 : ¬ (INS_JSR = INS_LDA_ZPX) := by decide
  simp only [CPU.ExecuteOne, CPU.FetchByte, CPU.FetchWord, hop, h1, h2, if_neg e1, if_neg e2,
    if_neg e3, if_true, Mem.WriteWord_of_lt _ _ _ _ hsp, subU32_jsr]

/-- C4: for every state with `SP < 0xFFFF` and a JSR (`0x20`) at address `p = PC` whose operand
bytes are `lo` at `p + 1` and `hi` at `p + 2` (addresses modulo 65536), the instruction
completes with `PC = lo + 256 * hi`; the word `(p + 2) mod 65536` is stored at the stack
pointer address, low byte at `SP` and high byte at `SP + 1`; and every memory cell other than
these two is unchanged. -/
theorem jsr_sets_PC_and_stores_return_word (cpu : CPU) (Cycles : Nat) (memory : Mem)
    (lo hi : Nat) (hm : memory.WF) (hsp : cpu.SP < 0xFFFF)
    (hop : memory.read cpu.PC = some INS_JSR)
    (hlo : memory.read ((cpu.PC + 1) % WORD) = some lo)
    (hhi : memory.read ((cpu.PC + 2) % WORD) = some hi) :
    ∃ st, cpu.ExecuteOne Cycles memory = some st ∧
      st.cpu.PC = lo + 256 * hi ∧
      st.memory.read cpu.SP = some ((cpu.PC + 2) % WORD % 256) ∧
      st.memory.read (cpu.SP + 1) = some ((cpu.PC + 2) % WORD / 256) ∧
      ∀ i, i ≠ cpu.SP → i ≠ cpu.SP + 1 → st.memory.Data i = memory.Data i := by
  have hM : MAX_MEM = 65536 := rfl
  have hB : BYTE = 256 := rfl
  have hsp1 : cpu.SP + 1 < MAX_MEM := by omega
  have hpc2 : ((cpu.PC + 1) % WORD + 1) % WORD = (cpu.PC + 2) % WORD := by
    simp only [WORD]; omega
  have hret : ((((cpu.PC + 1) % WORD + 1) % WORD + 1) % WORD + (WORD - 1)) % WORD
      = (cpu.PC + 2) % WORD := by
    simp only [WORD]; omega
  have hlod := Mem.lt_of_read _ _ _ hlo
  have hhid := Mem.lt_of_read _ _ _ hhi
  have hlo256 : lo < 256 := by have := hm _ hlod.1; rw [hlod.2] at this; exact this
  have hhi256 : hi < 256 := by have := hm _ hhid.1; rw [hhid.2] at this; exact this
  have hret256 : (cpu.PC + 2) % WORD / 256 < 256 := by
    simp only [WORD]; omega
  refine ⟨_, ExecuteOne_JSR cpu Cycles memory hop hsp1, ?_, ?_, ?_, ?_⟩
  · show (memory.Data ((cpu.PC + 1) % WORD) |||
        (memory.Data (((cpu.PC + 1) % WORD + 1) % WORD) <<< 8)) % WORD = lo + 256 * hi
    rw [hpc2, hlod.2, hhid.2, lor_shift8 lo hi hlo256]
    simp only [WORD]; omega
  · rw [Mem.read_of_lt _ _ (by omega)]
    simp only [hret, Mem.set_Data, and_ff, hB, Nat.mod_mod, if_true]
    rw [if_neg (by omega)]
  · rw [Mem.read_of_lt _ _ hsp1]
    simp only [hret, Mem.set_Data, shr8, hB, if_true, Nat.mod_eq_of_lt hret256]
  · intro i h1 h2
    simp [Mem.set_Data, h1, h2]

theorem mainJumpToSubroutine_WF (cpu : CPU) (mem : Mem) : (mainJumpToSubroutine cpu mem).2.WF := by
  unfold mainJumpToSubroutine
  exact Mem.set_WF _ _ _ (Mem.set_WF _ _ _ (Mem.set_WF _ _ _ (Mem.set_WF _ _ _ (Mem.set_WF _ _ _
    (Mem.Initialise_WF _) (by decide)) (by decide)) (by decide)) (by decide)) (by decide)

theorem mainJumpToSubroutine_read :
    (mainJumpToSubroutine staleCPU staleMem).2.read (mainJumpToSubroutine staleCPU staleMem).1.PC
        = some INS_JSR ∧
      (mainJumpToSubroutine staleCPU staleMem).2.read
        (((mainJumpToSubroutine staleCPU staleMem).1.PC + 1) % WORD) = some 0x42 ∧
      (mainJumpToSubroutine staleCPU staleMem).2.read
        (((mainJumpToSubroutine staleCPU staleMem).1.PC + 2) % WORD) = some 0x42 := by
  refine ⟨?_, ?_, ?_⟩ <;> decide

/-- Witness of C4 on the third program of `main` (`PC = 0xFFFC`, `SP = 0x0100`, operand bytes
`0x42`, `0x42`): the JSR sets `PC = 0x4242` and stores the word `0xFFFE` as `0xFE` at `0x0100`
and `0xFF` at `0x0101`. -/
theorem jsr_sets_PC_and_stores_return_word_witness :
    (mainJumpToSubroutine staleCPU staleMem).1.SP = 0x0100 ∧
    ∃ st, (mainJumpToSubroutine staleCPU staleMem).1.ExecuteOne 9
        (mainJumpToSubroutine staleCPU staleMem).2 = some st ∧
      st.cpu.PC = 0x4242 ∧ st.memory.read 0x0100 = some 0xFE ∧
      st.memory.read 0x0101 = some 0xFF := by
  refine ⟨rfl, ?_⟩
  obtain ⟨st, h1, h2, h3, h4, _⟩ := jsr_sets_PC_and_stores_return_word
    (mainJumpToSubroutine staleCPU staleMem).1 9 (mainJumpToSubroutine staleCPU staleMem).2
    0x42 0x42 (mainJumpToSubroutine_WF _ _) (by decide) mainJumpToSubroutine_read.1
    mainJumpToSubroutine_read.2.1 mainJumpToSubroutine_read.2.2
  exact ⟨st, h1, h2, h3, h4⟩

/-- C5, as stated, fails on the third program of `main`: the JSR at `0xFFFC` completes and the
stack pointer is `0x0100` before and after it; it has moved by `0`, not by `2`. -/
theorem jsr_does_not_move_SP_in_main :
    ∃ st, (mainJumpToSubroutine staleCPU staleMem).1.ExecuteOne 9
        (mainJumpToSubroutine staleCPU staleMem).2 = some st ∧
      (mainJumpToSubroutine staleCPU staleMem).1.SP = 0x0100 ∧ st.cpu.SP = 0x0100 ∧
      st.cpu.SP + 2 ≠ (mainJumpToSubroutine staleCPU staleMem).1.SP ∧
      st.cpu.SP ≠ (mainJumpToSubroutine staleCPU staleMem).1.SP + 2 := by
  refine ⟨_, ExecuteOne_JSR _ 9 _ mainJumpToSubroutine_read.1 (by decide), ?_, ?_, ?_, ?_⟩
  · rfl
  · rfl
  · decide
  · decide

/-- C5, amended: executing JSR (`0x20`) does not move the stack pointer. For every state with
a JSR at `PC`, whenever the instruction completes `SP` after it equals `SP` before it, and the
instruction does complete whenever `SP < 0xFFFF` (both bytes of the stored word are then
inside the memory array). -/
theorem jsr_leaves_SP_unchanged (cpu : CPU) (Cycles : Nat) (memory : Mem)
    (hop : memory.read cpu.PC = some INS_JSR) :
    (∀ st, cpu.ExecuteOne Cycles memory = some st → st.cpu.SP = cpu.SP) ∧
    (cpu.SP < 0xFFFF → ∃ st, cpu.ExecuteOne Cycles memory = some st) := by
  constructor
  · intro st h
    have h1 := Mem.read_succ_word memory cpu.PC
    have h2 := Mem.read_succ_word memory ((cpu.PC + 1) % WORD)
    have e1 : ¬ (INS_JSR = INS_LDA_IM) := by decide
    have e2 : ¬ (INS_JSR = INS_LDA_ZP) := by decide
    have e3 : ¬ (INS_JSR = INS_LDA_ZPX) := by decide
    simp only [CPU.ExecuteOne, CPU.FetchByte, CPU.FetchWord, hop, h1, h2, if_neg e1, if_neg e2,
      if_neg e3, if_true] at h
    split at h
    · exact absurd h (by simp)
    · have h' := Option.some.inj h
      rw [← h']
  · intro hsp
    exact ⟨_, ExecuteOne_JSR cpu Cycles memory hop (by simp only [MAX_MEM]; omega)⟩

/-- Witness of the amended C5 on the third program of `main`: the JSR completes and leaves
`SP = 0x0100`. -/
theorem jsr_leaves_SP_unchanged_witness :
    ∃ st, (mainJumpToSubroutine staleCPU staleMem).1.ExecuteOne 9
        (mainJumpToSubroutine staleCPU staleMem).2 = some st ∧ st.cpu.SP = 0x0100 := by
  have h := jsr_leaves_SP_unchanged (mainJumpToSubroutine staleCPU staleMem).1 9
    (mainJumpToSubroutine staleCPU staleMem).2 mainJumpToSubroutine_read.1
  obtain ⟨st, hst⟩ := h.2 (by decide)
  exact ⟨st, hst, h.1 st hst⟩

/-! ## Unhandled opcodes and the loop of `Execute` -/

theorem ExecuteOne_unhandled (cpu : CPU) (Cycles : Nat) (memory : Mem) (Ins : Nat)
    (hop : memory.read cpu.PC = some Ins) (h1 : Ins ≠ INS_LDA_IM) (h2 : Ins ≠ INS_LDA_ZP)
    (h3 : Ins ≠ INS_LDA_ZPX) (h4 : Ins ≠ INS_JSR) :
    cpu.ExecuteOne Cycles memory =
      some ⟨{ cpu with PC := (cpu.PC + 1) % WORD }, subU32 Cycles 1, memory⟩ := by
  simp only [CPU.ExecuteOne, CPU.FetchByte, hop, if_neg h1, if_neg h2, if_neg h3, if_neg h4]

theorem ExecuteLoop_zero_cycles (fuel count : Nat) (cpu : CPU) (memory : Mem) :
    CPU.ExecuteLoop fuel count cpu 0 memory = Run.halted count cpu memory := by
  cases fuel <;> simp [CPU.ExecuteLoop]

theorem ExecuteLoop_step (fuel count : Nat) (cpu : CPU) (Cycles : Nat) (memory : Mem)
    (st : Machine) (hc : 0 < Cycles) (h : cpu.ExecuteOne Cycles memory = some st) :
    CPU.ExecuteLoop (fuel + 1) count cpu Cycles memory =
      CPU.ExecuteLoop fuel (count + 1) st.cpu st.Cycles st.memory := by
  simp [CPU.ExecuteLoop, hc, h]

theorem ExecuteLoop_out_of_fuel (count : Nat) (cpu : CPU) (Cycles : Nat) (memory : Mem)
    (hc : 0 < Cycles) :
    CPU.ExecuteLoop 0 count cpu Cycles memory = Run.running ⟨cpu, Cycles, memory⟩ := by
  simp [CPU.ExecuteLoop, hc]

theorem ExecuteLoop_count_le (fuel : Nat) :
    ∀ (count : Nat) (cpu : CPU) (Cycles : Nat) (memory : Mem) (k : Nat) (cpu' : CPU)
      (memory' : Mem),
      CPU.ExecuteLoop fuel count cpu Cycles memory = Run.halted k cpu' memory' → count ≤ k := by
  induction fuel with
  | zero =>
    intro count cpu Cycles memory k cpu' memory' h
    by_cases hc : 0 < Cycles
    · rw [ExecuteLoop_out_of_fuel _ _ _ _ hc] at h
      exact absurd h (by simp)
    · have h0 : Cycles = 0 := by omega
      subst h0
      rw [ExecuteLoop_zero_cycles] at h
      injection h with hk
      omega
  | succ n ih =>
    intro count cpu Cycles memory k cpu' memory' h
    by_cases hc : 0 < Cycles
    · cases hst : cpu.ExecuteOne Cycles memory with
      | none =>
        simp [CPU.ExecuteLoop, hc, hst] at h
      | some st =>
        rw [ExecuteLoop_step _ _ _ _ _ st hc hst] at h
        have := ih _ _ _ _ _ _ _ h
        omega
    · have h0 : Cycles = 0 := by omega
      subst h0
      rw [ExecuteLoop_zero_cycles] at h
      injection h with hk
      omega

theorem ExecuteLoop_count_lt (fuel count : Nat) (cpu : CPU) (Cycles : Nat) (memory : Mem)
    (k : Nat) (cpu' : CPU) (memory' : Mem) (hc : 0 < Cycles)
    (h : CPU.ExecuteLoop fuel count cpu Cycles memory = Run.halted k cpu' memory') :
    count < k := by
  cases fuel with
  | zero =>
    rw [ExecuteLoop_out_of_fuel _ _ _ _ hc] at h
    exact absurd h (by simp)
  | succ n =>
    cases hst : cpu.ExecuteOne Cycles memory with
    | none =>
      simp [CPU.ExecuteLoop, hc, hst] at h
    | some st =>
      rw [ExecuteLoop_step _ _ _ _ _ st hc hst] at h
      have := ExecuteLoop_count_le _ _ _ _ _ _ _ _ h
      omega

theorem mainLoadImmediate_read_FFFE :
    (mainLoadImmediate staleCPU staleMem).2.read 0xFFFE = some 0 := by
  rw [Mem.read_of_lt _ _ (by decide)]
  simp [mainLoadImmediate, CPU.Reset, Mem.set_Data, Mem.Initialise_Data, MAX_MEM]

/-- C6 fails on the code at budget 1: on the freshly reset CPU of `main` with `LDA #$42` at
`0xFFFC`, the first instruction charges 2 cycles, which exceeds the budget, but the `u32`
counter wraps from `1` to `4294967295`, so `while (Cycles > 0)` goes on: `Execute` never
halts having run exactly one instruction, and after two instructions it is still running with
the counter at `4294967294` and `PC = 0xFFFF`. -/
theorem execute_budget_one_overruns :
    (∃ st, (mainLoadImmediate staleCPU staleMem).1.ExecuteOne 1
        (mainLoadImmediate staleCPU staleMem).2 = some st ∧ st.Cycles = 4294967295) ∧
    (∀ fuel cpu' mem', (mainLoadImmediate staleCPU staleMem).1.Execute fuel 1
        (mainLoadImmediate staleCPU staleMem).2 ≠ Run.halted 1 cpu' mem') ∧
    (∃ st, (mainLoadImmediate staleCPU staleMem).1.Execute 2 1
        (mainLoadImmediate staleCPU staleMem).2 = Run.running st ∧
      st.Cycles = 4294967294 ∧ st.cpu.PC = 0xFFFF) := by
  have hone := ExecuteOne_LDA_IM (mainLoadImmediate staleCPU staleMem).1 1
    (mainLoadImmediate staleCPU staleMem).2 mainLoadImmediate_read.1
  refine ⟨⟨_, hone, by decide⟩, ?_, ?_⟩
  · intro fuel cpu' mem' h
    cases fuel with
    | zero =>
      unfold CPU.Execute at h
      rw [ExecuteLoop_out_of_fuel _ _ _ _ (by decide)] at h
      exact absurd h (by simp)
    | succ n =>
      unfold CPU.Execute at h
      rw [ExecuteLoop_step _ _ _ _ _ _ (by decide) hone] at h
      have := ExecuteLoop_count_lt _ _ _ _ _ _ _ _ (by decide) h
      omega
  · obtain ⟨st1, h1, hm1, hpc1, hc1⟩ : ∃ st1,
        (mainLoadImmediate staleCPU staleMem).1.ExecuteOne 1
          (mainLoadImmediate staleCPU staleMem).2 = some st1 ∧
        st1.memory = (mainLoadImmediate staleCPU staleMem).2 ∧ st1.cpu.PC = 0xFFFE ∧
        st1.Cycles = 4294967295 := ⟨_, hone, rfl, by decide, by decide⟩
    have hread : st1.memory.read st1.cpu.PC = some 0 := by
      rw [hm1, hpc1]; exact mainLoadImmediate_read_FFFE
    have h2 := ExecuteOne_unhandled st1.cpu st1.Cycles st1.memory 0 hread
      (by decide) (by decide) (by decide) (by decide)
    refine ⟨⟨{ st1.cpu with PC := (st1.cpu.PC + 1) % WORD }, subU32 st1.Cycles 1, st1.memory⟩,
      ?_, ?_, ?_⟩
    · unfold CPU.Execute
      rw [ExecuteLoop_step _ _ _ _ _ _ (by decide) h1,
        ExecuteLoop_step _ _ _ _ _ _ (by rw [hc1]; decide) h2,
        ExecuteLoop_out_of_fuel _ _ _ _
          (show 0 < subU32 st1.Cycles 1 by rw [hc1]; decide)]
    · show subU32 st1.Cycles 1 = 4294967294
      rw [hc1]; decide
    · show (st1.cpu.PC + 1) % WORD = 0xFFFF
      rw [hpc1]; decide

/-- C7: for every entry address `p = PC` and value `v`, with `0xA9` at `p` and `v` at
`(p + 1) mod 65536`, `Execute` with budget 2 halts after exactly one instruction (for every
bound of at least one instruction on the loop), the memory is unchanged, and `A = v`,
`Z = (v == 0)`, `N` = bit 7 of `v`, `PC = (p + 2) mod 65536`. -/
theorem execute_lda_immediate_budget_two (cpu : CPU) (memory : Mem) (v fuel : Nat)
    (hop : memory.read cpu.PC = some INS_LDA_IM)
    (hv : memory.read ((cpu.PC + 1) % WORD) = some v) :
    ∃ cpu', cpu.Execute (fuel + 1) 2 memory = Run.halted 1 cpu' memory ∧
      cpu'.A = v ∧ cpu'.Z = (if v = 0 then 1 else 0) ∧ cpu'.N = v / 128 % 2 ∧
      cpu'.PC = (cpu.PC + 2) % WORD := by
  have hvd := (Mem.lt_of_read _ _ _ hv).2
  obtain ⟨st, hone, hc, hm, hA, hZ, hN, hPC⟩ : ∃ st, cpu.ExecuteOne 2 memory = some st ∧
      st.Cycles = 0 ∧ st.memory = memory ∧ st.cpu.A = v ∧
      st.cpu.Z = (if v = 0 then 1 else 0) ∧ st.cpu.N = v / 128 % 2 ∧
      st.cpu.PC = (cpu.PC + 2) % WORD := by
    refine ⟨_, ExecuteOne_LDA_IM cpu 2 memory hop,
      (show subU32 2 2 = 0 by decide), rfl, ?_, ?_, ?_, ?_⟩
    · simp [CPU.LDASetStatus, hvd]
    · simp [CPU.LDASetStatus, hvd]
    · simp only [CPU.LDASetStatus, hvd]
      exact negative_bit v
    · show ((cpu.PC + 1) % WORD + 1) % WORD = (cpu.PC + 2) % WORD
      simp only [WORD]; omega
  refine ⟨st.cpu, ?_, hA, hZ, hN, hPC⟩
  unfold CPU.Execute
  rw [ExecuteLoop_step _ _ _ _ _ _ (by decide) hone, hc, ExecuteLoop_zero_cycles, hm]

/-- Witness of C7 at `p = 0x4242`, `v = 0x84`: `Execute` with budget 2 halts after one
instruction with `A = 0x84`, `Z = 0`, `N = 1` and `PC = 0x4244`. -/
theorem execute_lda_immediate_budget_two_witness :
    (entryAt4242 staleCPU staleMem).1.PC = 0x4242 ∧
    ∃ cpu', (entryAt4242 staleCPU staleMem).1.Execute 1 2 (entryAt4242 staleCPU staleMem).2
        = Run.halted 1 cpu' (entryAt4242 staleCPU staleMem).2 ∧
      cpu'.A = 0x84 ∧ cpu'.Z = 0 ∧ cpu'.N = 1 ∧ cpu'.PC = 0x4244 :=
  ⟨rfl, execute_lda_immediate_budget_two (entryAt4242 staleCPU staleMem).1
    (entryAt4242 staleCPU staleMem).2 0x84 0 (by decide) (by decide)⟩

/-! ## Reset -/

/-- C8 fails on the code: `Reset` assigns `0` to `D`, `A`, `X`, `Y`, `C`, `Z`, `I` only. From
the well-formed prior state `staleCPU`, in which every flag is `1`, the flags `B`, `V` and `N`
are still `1` after `Reset`, while `C`, `Z`, `I`, `D` and `A`, `X`, `Y` are `0`. -/
theorem reset_leaves_B_V_N_set :
    staleCPU.WF ∧
    (staleCPU.Reset staleMem).1.B = 1 ∧ (staleCPU.Reset staleMem).1.V = 1 ∧
    (staleCPU.Reset staleMem).1.N = 1 ∧
    (staleCPU.Reset staleMem).1.C = 0 ∧ (staleCPU.Reset staleMem).1.Z = 0 ∧
    (staleCPU.Reset staleMem).1.I = 0 ∧ (staleCPU.Reset staleMem).1.D = 0 ∧
    (staleCPU.Reset staleMem).1.A = 0 ∧ (staleCPU.Reset staleMem).1.X = 0 ∧
    (staleCPU.Reset staleMem).1.Y = 0 := by
  refine ⟨by decide, rfl, rfl, rfl, rfl, rfl, rfl, rfl, rfl, rfl, rfl⟩

/-- C9, as stated, fails: after `Reset` of the prior state `staleCPU`, `staleMem` the two
reset-vector bytes at `0xFFFC` and `0xFFFD` both read `0`, so the little-endian word they hold
is `0`, while `PC` is `0xFFFC`. -/
theorem reset_PC_is_not_the_vector_word :
    (staleCPU.Reset staleMem).2.read 0xFFFC = some 0 ∧
    (staleCPU.Reset staleMem).2.read 0xFFFD = some 0 ∧
    (staleCPU.Reset staleMem).1.PC = 0xFFFC ∧
    (staleCPU.Reset staleMem).1.PC ≠ 0 + 256 * 0 := by
  refine ⟨?_, ?_, rfl, by decide⟩
  · rw [Mem.read_of_lt _ _ (by decide)]
    simp [CPU.Reset, Mem.Initialise_Data, MAX_MEM]
  · rw [Mem.read_of_lt _ _ (by decide)]
    simp [CPU.Reset, Mem.Initialise_Data, MAX_MEM]

/-- C9, amended: after `Reset`, for every prior CPU state and memory, `PC` is the fixed
address `0xFFFC` of the reset vector itself; the two reset-vector bytes at `0xFFFC` and
`0xFFFD` read `0` after the reset and are not loaded into `PC`. -/
theorem reset_PC_is_vector_address (cpu : CPU) (memory : Mem) :
    (cpu.Reset memory).1.PC = 0xFFFC ∧
    (cpu.Reset memory).2.read 0xFFFC = some 0 ∧
    (cpu.Reset memory).2.read 0xFFFD = some 0 := by
  refine ⟨rfl, ?_, ?_⟩
  · rw [Mem.read_of_lt _ _ (by decide)]
    simp [CPU.Reset, Mem.Initialise_Data, MAX_MEM]
  · rw [Mem.read_of_lt _ _ (by decide)]
    simp [CPU.Reset, Mem.Initialise_Data, MAX_MEM]

/-! ## Words in memory -/

/-- C10: word round trip. For every value `v` in `0..65535`, every address `a` in `0..0xFFFE`,
every memory, CPU and cycle counters, `Mem::WriteWord(v, a)` completes, and on the memory it
leaves a `CPU::FetchWord` with `PC = a` completes and returns `v`. -/
theorem writeWord_fetchWord_roundtrip (m : Mem) (cpu : CPU) (v a c1 c2 : Nat)
    (hv : v < WORD) (ha : a ≤ 0xFFFE) :
    ∃ m' c1', m.WriteWord v a c1 = some (m', c1') ∧
      ∃ cpu' c2', ({ cpu with PC := a }).FetchWord c2 m' = some (v, cpu', c2') := by
  have hW : WORD = 65536 := rfl
  have hB : BYTE = 256 := rfl
  have ha1 : a + 1 < MAX_MEM := by simp only [MAX_MEM]; omega
  have ha0 : a < MAX_MEM := by omega
  have hmod : (a + 1) % WORD = a + 1 := by
    simp only [WORD]; omega
  refine ⟨_, _, Mem.WriteWord_of_lt m v a c1 ha1, ?_⟩
  have hlo : ((m.set a ((v &&& 0xff) % BYTE)).set (a + 1) ((v >>> 8) % BYTE)).read a
      = some (v % 256) := by
    rw [Mem.read_of_lt _ _ ha0]
    simp only [Mem.set_Data, and_ff, hB, Nat.mod_mod, if_true]
    rw [if_neg (by omega)]
  have hhi : ((m.set a ((v &&& 0xff) % BYTE)).set (a + 1) ((v >>> 8) % BYTE)).read (a + 1)
      = some (v / 256) := by
    rw [Mem.read_of_lt _ _ ha1]
    have : v / 256 < 256 := by rw [hW] at hv; omega
    simp only [Mem.set_Data, shr8, hB, if_true, Nat.mod_eq_of_lt this]
  have hword : (v % 256 ||| (v / 256) <<< 8) % WORD = v := by
    rw [lor_shift8 _ _ (Nat.mod_lt _ (by decide))]
    simp only [WORD] at hv ⊢; omega
  refine ⟨{ cpu with PC := ((a + 1) % WORD + 1) % WORD }, subU32 (subU32 c2 1) 1, ?_⟩
  simp only [CPU.FetchWord, hlo, hmod, hhi, hword]

/-- Witness of C10: the word `0xFFFE` written at `0x0100` (the stack word of the third program
of `main`) into the sample memory is fetched back from `PC = 0x0100`. -/
theorem writeWord_fetchWord_roundtrip_witness :
    ∃ m' c1', staleMem.WriteWord 0xFFFE 0x0100 6 = some (m', c1') ∧
      ∃ cpu' c2', ({ staleCPU with PC := 0x0100 }).FetchWord 2 m' = some (0xFFFE, cpu', c2') :=
  writeWord_fetchWord_roundtrip staleMem staleCPU 0xFFFE 0x0100 6 2 (by decide) (by decide)

/-! ## Unhandled opcodes -/

theorem reset_read_FFFC : (staleCPU.Reset staleMem).2.read 0xFFFC = some 0 := by
  rw [Mem.read_of_lt _ _ (by decide)]
  simp [CPU.Reset, Mem.Initialise_Data, MAX_MEM]

/-- C11: an unhandled opcode is a no-op of cost one. For every opcode byte `Ins` at `PC` other
than `0xA9`, `0xA5`, `0xB5` and `0x20`, from every state the instruction completes, `PC`
advances by 1 modulo 65536, the `u32` cycle counter goes down by exactly 1 (modulo `2 ^ 32`,
and without wrapping whenever it holds at least 1), and `A`, `X`, `Y`, `SP`, the seven flags
and the whole memory are unchanged. -/
theorem unhandled_opcode_is_one_cycle_noop (cpu : CPU) (Cycles : Nat) (memory : Mem)
    (Ins : Nat) (hc : Cycles < U32) (hop : memory.read cpu.PC = some Ins)
    (h : Ins ≠ 0xA9 ∧ Ins ≠ 0xA5 ∧ Ins ≠ 0xB5 ∧ Ins ≠ 0x20) :
    ∃ st, cpu.ExecuteOne Cycles memory = some st ∧
      st.cpu.PC = (cpu.PC + 1) % 65536 ∧
      st.Cycles = (Cycles + (U32 - 1)) % U32 ∧ (1 ≤ Cycles → st.Cycles + 1 = Cycles) ∧
      st.cpu.A = cpu.A ∧ st.cpu.X = cpu.X ∧ st.cpu.Y = cpu.Y ∧ st.cpu.SP = cpu.SP ∧
      st.cpu.C = cpu.C ∧ st.cpu.Z = cpu.Z ∧ st.cpu.I = cpu.I ∧ st.cpu.D = cpu.D ∧
      st.cpu.B = cpu.B ∧ st.cpu.V = cpu.V ∧ st.cpu.N = cpu.N ∧
      st.memory = memory := by
  refine ⟨_, ExecuteOne_unhandled cpu Cycles memory Ins hop h.1 h.2.1 h.2.2.1 h.2.2.2,
    rfl, rfl, ?_, rfl, rfl, rfl, rfl, rfl, rfl, rfl, rfl, rfl, rfl, rfl, rfl⟩
  intro h1
  show subU32 Cycles 1 + 1 = Cycles
  simp only [subU32, U32] at hc ⊢; omega

/-- Witness of C11: on the freshly reset CPU with zero-filled memory the opcode at `0xFFFC` is
`0x00`; the instruction moves `PC` to `0xFFFD`, takes the counter from 1 to 0 and leaves the
flag `B`, which the reset did not clear, at `1`. -/
theorem unhandled_opcode_is_one_cycle_noop_witness :
    ∃ st, (staleCPU.Reset staleMem).1.ExecuteOne 1 (staleCPU.Reset staleMem).2 = some st ∧
      st.cpu.PC = 0xFFFD ∧ st.Cycles = 0 ∧ st.cpu.B = 1 ∧
      st.memory = (staleCPU.Reset staleMem).2 := by
  obtain ⟨st, h1, h2, h3, _, _, _, _, _, _, _, _, _, h13, _, _, h16⟩ :=
    unhandled_opcode_is_one_cycle_noop (staleCPU.Reset staleMem).1 1
      (staleCPU.Reset staleMem).2 0 (by decide) reset_read_FFFC (by decide)
  exact ⟨st, h1, h2, h3, h13, h16⟩

/-! ## Word stores at the end of the array -/

/-- C12 fails on the code at `a = 0xFFFF`: `Mem::WriteWord` stores the low byte at
`Data[0xFFFF]` and then indexes `Data[Address + 1]` with `Address + 1 = 65536 = MAX_MEM`,
computed in `u32` without wrapping to `0`; that index is outside the array, so the call has no
defined result, and the cell at address `0` is not the one written. -/
theorem writeWord_at_FFFF_leaves_the_array :
    staleMem.WF ∧
    (∃ m1, staleMem.write 0xFFFF ((0x1234 &&& 0xff) % BYTE) = some m1 ∧
      (0xFFFF + 1) % U32 = MAX_MEM ∧
      m1.write ((0xFFFF + 1) % U32) ((0x1234 >>> 8) % BYTE) = none) ∧
    staleMem.WriteWord 0x1234 0xFFFF 2 = none := by
  refine ⟨?_, ⟨_, rfl, by decide, ?_⟩, ?_⟩
  · intro i _
    exact Nat.mod_lt _ (by decide)
  · simp [Mem.write, U32, MAX_MEM]
  · simp [Mem.WriteWord, Mem.write, U32, MAX_MEM]

/-! ## Reset and memory -/

/-- C13: `Reset` zero-fills the address space. For every prior CPU state and memory contents,
every address `a` in `0x0000..0xFFFF` reads `0` after `CPU::Reset`. -/
theorem reset_zero_fills_memory (cpu : CPU) (memory : Mem) (a : Nat) (ha : a ≤ 0xFFFF) :
    (cpu.Reset memory).2.read a = some 0 := by
  have hlt : a < MAX_MEM := by simp only [MAX_MEM]; omega
  rw [Mem.read_of_lt _ _ hlt]
  show some ((memory.Initialise).Data a) = some 0
  rw [Mem.Initialise_Data, if_pos hlt]

/-- Witness of C13: the cell at `0xFFFF` of the sample memory holds `250` before the reset and
reads `0` after it. -/
theorem reset_zero_fills_memory_witness :
    staleMem.read 0xFFFF = some 250 ∧ (staleCPU.Reset staleMem).2.read 0xFFFF = some 0 :=
  ⟨by decide, reset_zero_fills_memory staleCPU staleMem 0xFFFF (by decide)⟩

theorem staleMem_WF : staleMem.WF := by
  intro i _
  exact Nat.mod_lt _ (by decide)

/-- C14: `CPU::FetchWord` reads a little-endian word with wraparound. For every `PC = p` in
`0..0xFFFF`, every memory of bytes and every `u32` cycle counter, the call completes and
returns `memory[p] + 256 * memory[(p + 1) mod 65536]`, leaves `PC = (p + 2) mod 65536`, and
takes exactly 2 from the cycle counter (modulo `2 ^ 32`, and without wrapping whenever the
counter holds at least 2). -/
theorem fetchWord_little_endian_wraps (cpu : CPU) (Cycles : Nat) (memory : Mem)
    (hpc : cpu.PC ≤ 0xFFFF) (hm : memory.WF) (hc : Cycles < U32) :
    ∃ w cpu' c', cpu.FetchWord Cycles memory = some (w, cpu', c') ∧
      w = memory.Data cpu.PC + 256 * memory.Data ((cpu.PC + 1) % 65536) ∧
      cpu'.PC = (cpu.PC + 2) % 65536 ∧
      c' = (Cycles + (U32 - 2)) % U32 ∧ (2 ≤ Cycles → c' + 2 = Cycles) := by
  have hW : WORD = 65536 := rfl
  have hp : cpu.PC < MAX_MEM := by simp only [MAX_MEM]; omega
  have h1 : (cpu.PC + 1) % 65536 < MAX_MEM := by simp only [MAX_MEM]; omega
  have hlo : memory.Data cpu.PC < 256 := hm _ hp
  have hhi : memory.Data ((cpu.PC + 1) % 65536) < 256 := hm _ h1
  refine ⟨memory.Data cpu.PC + 256 * memory.Data ((cpu.PC + 1) % 65536),
    { cpu with PC := (cpu.PC + 2) % 65536 }, (Cycles + (U32 - 2)) % U32, ?_, rfl, rfl, rfl, ?_⟩
  · have hword : (memory.Data cpu.PC ||| memory.Data ((cpu.PC + 1) % 65536) <<< 8) % 65536
        = memory.Data cpu.PC + 256 * memory.Data ((cpu.PC + 1) % 65536) := by
      rw [lor_shift8 _ _ hlo]; omega
    have hpc2 : ((cpu.PC + 1) % 65536 + 1) % 65536 = (cpu.PC + 2) % 65536 := by omega
    have hcy : subU32 (subU32 Cycles 1) 1 = (Cycles + (U32 - 2)) % U32 := subU32_one_one Cycles
    simp only [CPU.FetchWord, Mem.read_of_lt _ _ hp, hW, Mem.read_of_lt _ _ h1, hword, hpc2, hcy]
  · intro h2
    simp only [U32] at hc ⊢; omega

/-- Witness of C14 at `p = 0xFFFF`: in the sample memory the cell `0xFFFF` holds `250` and the
cell `0` holds `1`, so the word fetched is `250 + 256 * 1 = 506`, `PC` becomes `1` and a
counter of 2 becomes 0. -/
theorem fetchWord_little_endian_wraps_witness :
    ∃ cpu', ({ staleCPU with PC := 0xFFFF }).FetchWord 2 staleMem = some (506, cpu', 0) ∧
      cpu'.PC = 1 := by
  obtain ⟨w, cpu', c', h1, h2, h3, h4, _⟩ := fetchWord_little_endian_wraps
    { staleCPU with PC := 0xFFFF } 2 staleMem (by decide) staleMem_WF (by decide)
  have hw : w = 506 := by rw [h2]; decide
  have hc : c' = 0 := by rw [h4]; decide
  rw [hw, hc] at h1
  exact ⟨cpu', h1, by rw [h3]; decide⟩

/-! ## Frames of the instructions -/

/-- C18: frame of the load instructions. For every state and every memory of bytes, one LDA
(`0xA9`, `0xA5` or `0xB5`) completes and leaves `X`, `Y`, `SP`, the flags `C`, `I`, `D`, `B`,
`V` and the whole memory unchanged, with `PC` advanced by exactly 2 modulo 65536. -/
theorem lda_changes_only_A_Z_N_PC (cpu : CPU) (Cycles : Nat) (memory : Mem)
    (hm : memory.WF)
    (h : memory.read cpu.PC = some 0xA9 ∨ memory.read cpu.PC = some 0xA5 ∨
         memory.read cpu.PC = some 0xB5) :
    ∃ st, cpu.ExecuteOne Cycles memory = some st ∧
      st.cpu.X = cpu.X ∧ st.cpu.Y = cpu.Y ∧ st.cpu.SP = cpu.SP ∧
      st.cpu.C = cpu.C ∧ st.cpu.I = cpu.I ∧ st.cpu.D = cpu.D ∧ st.cpu.B = cpu.B ∧
      st.cpu.V = cpu.V ∧ st.memory = memory ∧ st.cpu.PC = (cpu.PC + 2) % 65536 := by
  have hpc2 : ((cpu.PC + 1) % WORD + 1) % WORD = (cpu.PC + 2) % 65536 := by
    simp only [WORD]; omega
  rcases h with hop | hop | hop
  · exact ⟨_, ExecuteOne_LDA_IM cpu Cycles memory hop,
      rfl, rfl, rfl, rfl, rfl, rfl, rfl, rfl, rfl, hpc2⟩
  · have hzp : memory.Data ((cpu.PC + 1) % WORD) < MAX_MEM := by
      have h1 : (cpu.PC + 1) % WORD < MAX_MEM := Nat.mod_lt _ (by decide)
      have h2 := hm _ h1
      have h3 : BYTE ≤ MAX_MEM := by decide
      omega
    exact ⟨_, ExecuteOne_LDA_ZP cpu Cycles memory hop hzp,
      rfl, rfl, rfl, rfl, rfl, rfl, rfl, rfl, rfl, hpc2⟩
  · exact ⟨_, ExecuteOne_LDA_ZPX cpu Cycles memory hop,
      rfl, rfl, rfl, rfl, rfl, rfl, rfl, rfl, rfl, hpc2⟩

/-- Witness of C18 on the three load programs: each load leaves `X`, `SP` and the memory as
they were and moves `PC` from `0xFFFC` to `0xFFFE`. -/
theorem lda_changes_only_A_Z_N_PC_witness :
    (∃ st, (mainLoadImmediate staleCPU staleMem).1.ExecuteOne 2
        (mainLoadImmediate staleCPU staleMem).2 = some st ∧ st.cpu.X = 0 ∧
      st.cpu.SP = 0x0100 ∧ st.memory = (mainLoadImmediate staleCPU staleMem).2 ∧
      st.cpu.PC = 0xFFFE) ∧
    (∃ st, (mainLoadZeroPage staleCPU staleMem).1.ExecuteOne 3
        (mainLoadZeroPage staleCPU staleMem).2 = some st ∧ st.cpu.X = 0 ∧
      st.cpu.SP = 0x0100 ∧ st.memory = (mainLoadZeroPage staleCPU staleMem).2 ∧
      st.cpu.PC = 0xFFFE) ∧
    (∃ st, (demoLoadZeroPageX staleCPU staleMem).1.ExecuteOne 4
        (demoLoadZeroPageX staleCPU staleMem).2 = some st ∧ st.cpu.X = 2 ∧
      st.cpu.SP = 0x0100 ∧ st.memory = (demoLoadZeroPageX staleCPU staleMem).2 ∧
      st.cpu.PC = 0xFFFE) := by
  refine ⟨?_, ?_, ?_⟩
  · obtain ⟨st, h0, hX, _, hSP, _, _, _, _, _, hmem, hPC⟩ := lda_changes_only_A_Z_N_PC
      (mainLoadImmediate staleCPU staleMem).1 2 (mainLoadImmediate staleCPU staleMem).2
      (mainLoadImmediate_WF _ _) (Or.inl mainLoadImmediate_read.1)
    exact ⟨st, h0, hX, hSP, hmem, hPC⟩
  · obtain ⟨st, h0, hX, _, hSP, _, _, _, _, _, hmem, hPC⟩ := lda_changes_only_A_Z_N_PC
      (mainLoadZeroPage staleCPU staleMem).1 3 (mainLoadZeroPage staleCPU staleMem).2
      (mainLoadZeroPage_WF _ _) (Or.inr (Or.inl mainLoadZeroPage_read.1))
    exact ⟨st, h0, hX, hSP, hmem, hPC⟩
  · obtain ⟨st, h0, hX, _, hSP, _, _, _, _, _, hmem, hPC⟩ := lda_changes_only_A_Z_N_PC
      (demoLoadZeroPageX staleCPU staleMem).1 4 (demoLoadZeroPageX staleCPU staleMem).2
      (demoLoadZeroPageX_WF _ _) (Or.inr (Or.inr demoLoadZeroPageX_read.1))
    exact ⟨st, h0, hX, hSP, hmem, hPC⟩

theorem Mem.WriteWord_at_FFFF (m : Mem) (Value Cycles : Nat) :
    m.WriteWord Value 0xFFFF Cycles = none := by
  simp [Mem.WriteWord, Mem.write, U32, MAX_MEM]

theorem ExecuteOne_JSR_at_FFFF (cpu : CPU) (Cycles : Nat) (memory : Mem)
    (hop : memory.read cpu.PC = some INS_JSR) (hsp : cpu.SP = 0xFFFF) :
    cpu.ExecuteOne Cycles memory = none := by
  have h1 := Mem.read_succ_word memory cpu.PC
  have h2 := Mem.read_succ_word memory ((cpu.PC + 1) % WORD)
  have e1 : ¬ (INS_JSR = INS_LDA_IM) := by decide
  have e2 : ¬ (INS_JSR = INS_LDA_ZP) := by decide
  have e3 : ¬ (INS_JSR = INS_LDA_ZPX) := by decide
  simp only [CPU.ExecuteOne, CPU.FetchByte, CPU.FetchWord, hop, h1, h2, if_neg e1, if_neg e2,
    if_neg e3, if_true, hsp, Mem.WriteWord_at_FFFF]

theorem Mem.WriteWord_some_eq_Unchecked (m : Mem) (Value Address Cycles : Nat)
    (r : Mem × Nat) (h : m.WriteWord Value Address Cycles = some r) :
    m.WriteWordUnchecked Value Address Cycles = r := by
  unfold Mem.WriteWord Mem.write at h
  by_cases h1 : Address < MAX_MEM
  · rw [if_pos h1] at h
    by_cases h2 : (Address + 1) % U32 < MAX_MEM
    · simp only [if_pos h2] at h
      exact Option.some.inj h
    · simp only [if_neg h2] at h
      exact absurd h (by simp)
  · rw [if_neg h1] at h
    exact absurd h (by simp)

theorem ExecuteOneUnchecked_JSR (cpu : CPU) (Cycles : Nat) (memory : Mem)
    (hop : memory.read cpu.PC = some INS_JSR) :
    cpu.ExecuteOneUnchecked Cycles memory =
      some ⟨{ cpu with PC := (memory.Data ((cpu.PC + 1) % WORD) |||
                (memory.Data (((cpu.PC + 1) % WORD + 1) % WORD) <<< 8)) % WORD },
            subU32 Cycles 6,
            (memory.WriteWordUnchecked
              (((((cpu.PC + 1) % WORD + 1) % WORD + 1) % WORD + (WORD - 1)) % WORD)
              cpu.SP (subU32 (subU32 (subU32 Cycles 1) 1) 1)).1⟩ := by
  have h1 := Mem.read_succ_word memory cpu.PC
  have h2 := Mem.read_succ_word memory ((cpu.PC + 1) % WORD)
  have e1 : ¬ (INS_JSR = INS_LDA_IM) := by decide
  have e2 : ¬ (INS_JSR = INS_LDA_ZP) := by decide
  have e3 : ¬ (INS_JSR = INS_LDA_ZPX) := by decide
  simp only [CPU.ExecuteOneUnchecked, CPU.FetchByte, CPU.FetchWord, hop, h1, h2, if_neg e1,
    if_neg e2, if_neg e3, if_true, Mem.WriteWordUnchecked, subU32_jsr]

theorem ExecuteOne_JSR_some_eq_Unchecked (cpu : CPU) (Cycles : Nat) (memory : Mem)
    (st : Machine) (hop : memory.read cpu.PC = some INS_JSR)
    (h : cpu.ExecuteOne Cycles memory = some st) :
    cpu.ExecuteOneUnchecked Cycles memory = some st := by
  have h1 := Mem.read_succ_word memory cpu.PC
  have h2 := Mem.read_succ_word memory ((cpu.PC + 1) % WORD)
  have e1 : ¬ (INS_JSR = INS_LDA_IM) := by decide
  have e2 : ¬ (INS_JSR = INS_LDA_ZP) := by decide
  have e3 : ¬ (INS_JSR = INS_LDA_ZPX) := by decide
  simp only [CPU.ExecuteOne, CPU.FetchByte, CPU.FetchWord, hop, h1, h2, if_neg e1, if_neg e2,
    if_neg e3, if_true] at h
  simp only [CPU.ExecuteOneUnchecked, CPU.FetchByte, CPU.FetchWord, hop, h1, h2, if_neg e1,
    if_neg e2, if_neg e3, if_true]
  cases hw : memory.WriteWord
      (((((cpu.PC + 1) % WORD + 1) % WORD + 1) % WORD + (WORD - 1)) % WORD) cpu.SP
      (subU32 (subU32 (subU32 Cycles 1) 1) 1) with
  | none =>
    rw [hw] at h
    exact absurd h (by simp)
  | some r =>
    rw [hw] at h
    rw [Mem.WriteWord_some_eq_Unchecked _ _ _ _ r hw]
    exact h

/-- C19: for every CPU state and memory, one JSR (`0x20`), opcode fetch included, takes exactly
6 from the `u32` cycle counter (1 opcode fetch + 2 operand fetch + 2 word write + 1 internal;
modulo `2 ^ 32`, and without wrapping whenever the counter holds at least 6) and leaves `A`,
`X`, `Y` and the seven flags unchanged. The instruction is run with the two stores of
`Mem::WriteWord` as they stand in the source, so that the state with `SP = 0xFFFF`, whose
second store is at index 65536, is covered as well; whenever the bounds-checked body completes,
and it does whenever `SP < 0xFFFF`, it yields this same state. -/
theorem jsr_costs_six_cycles_and_keeps_registers (cpu : CPU) (Cycles : Nat) (memory : Mem)
    (hc : Cycles < U32) (hop : memory.read cpu.PC = some 0x20) :
    ∃ st, cpu.ExecuteOneUnchecked Cycles memory = some st ∧
      st.Cycles = (Cycles + (U32 - 6)) % U32 ∧ (6 ≤ Cycles → st.Cycles + 6 = Cycles) ∧
      st.cpu.A = cpu.A ∧ st.cpu.X = cpu.X ∧ st.cpu.Y = cpu.Y ∧
      st.cpu.C = cpu.C ∧ st.cpu.Z = cpu.Z ∧ st.cpu.I = cpu.I ∧ st.cpu.D = cpu.D ∧
      st.cpu.B = cpu.B ∧ st.cpu.V = cpu.V ∧ st.cpu.N = cpu.N ∧
      (∀ st', cpu.ExecuteOne Cycles memory = some st' → st' = st) ∧
      (cpu.SP < 0xFFFF → cpu.ExecuteOne Cycles memory = some st) := by
  have hun := ExecuteOneUnchecked_JSR cpu Cycles memory hop
  refine ⟨_, hun, rfl, ?_, rfl, rfl, rfl, rfl, rfl, rfl, rfl, rfl, rfl, rfl, ?_, ?_⟩
  · intro h6
    show subU32 Cycles 6 + 6 = Cycles
    simp only [subU32, U32] at hc ⊢; omega
  · intro st' hst'
    have h := ExecuteOne_JSR_some_eq_Unchecked cpu Cycles memory st' hop hst'
    rw [hun] at h
    exact (Option.some.inj h).symm
  · intro hsp
    have hlt : cpu.SP + 1 < MAX_MEM := by simp only [MAX_MEM]; omega
    obtain ⟨st', hst'⟩ : ∃ st', cpu.ExecuteOne Cycles memory = some st' :=
      ⟨_, ExecuteOne_JSR cpu Cycles memory hop hlt⟩
    have h := ExecuteOne_JSR_some_eq_Unchecked cpu Cycles memory st' hop hst'
    rw [hun] at h
    rw [hst', ← Option.some.inj h]

/-- Witness of C19 on the JSR of the third program of `main` started with 9 cycles, once with
`SP = 0x0100` as after the reset and once with `SP = 0xFFFF`: in both states the counter is 3
afterwards, `A` is still `0` and the flag `B`, which the reset did not clear, is still `1`. -/
theorem jsr_costs_six_cycles_and_keeps_registers_witness :
    (∃ st, (mainJumpToSubroutine staleCPU staleMem).1.ExecuteOneUnchecked 9
        (mainJumpToSubroutine staleCPU staleMem).2 = some st ∧
      (mainJumpToSubroutine staleCPU staleMem).1.ExecuteOne 9
        (mainJumpToSubroutine staleCPU staleMem).2 = some st ∧
      st.Cycles = 3 ∧ st.cpu.A = 0 ∧ st.cpu.B = 1) ∧
    (∃ st, ({ (mainJumpToSubroutine staleCPU staleMem).1 with SP := 0xFFFF }).ExecuteOneUnchecked
        9 (mainJumpToSubroutine staleCPU staleMem).2 = some st ∧
      st.Cycles = 3 ∧ st.cpu.A = 0 ∧ st.cpu.B = 1) := by
  constructor
  · obtain ⟨st, h0, _, h2, hA, _, _, _, _, _, _, hB, _, _, _, hch⟩ :=
      jsr_costs_six_cycles_and_keeps_registers (mainJumpToSubroutine staleCPU staleMem).1 9
        (mainJumpToSubroutine staleCPU staleMem).2 (by decide) mainJumpToSubroutine_read.1
    exact ⟨st, h0, hch (by decide), by have := h2 (by decide); omega, hA, hB⟩
  · obtain ⟨st, h0, _, h2, hA, _, _, _, _, _, _, hB, _, _, _, _⟩ :=
      jsr_costs_six_cycles_and_keeps_registers
        { (mainJumpToSubroutine staleCPU staleMem).1 with SP := 0xFFFF } 9
        (mainJumpToSubroutine staleCPU staleMem).2 (by decide) mainJumpToSubroutine_read.1
    exact ⟨st, h0, by have := h2 (by decide); omega, hA, hB⟩

/-! ## Runs from the reset state -/

theorem ExecuteOne_JSR_bytes (cpu : CPU) (Cycles : Nat) (memory : Mem) (hm : memory.WF)
    (hop : memory.read cpu.PC = some INS_JSR) (hsp : cpu.SP < 0xFFFF) :
    cpu.ExecuteOne Cycles memory =
      some ⟨{ cpu with PC := memory.Data ((cpu.PC + 1) % WORD) +
                256 * memory.Data ((cpu.PC + 2) % WORD) },
            subU32 Cycles 6,
            (memory.set cpu.SP ((cpu.PC + 2) % WORD % 256)).set (cpu.SP + 1)
              ((cpu.PC + 2) % WORD / 256)⟩ := by
  have hB : BYTE = 256 := rfl
  have hpc2 : ((cpu.PC + 1) % WORD + 1) % WORD = (cpu.PC + 2) % WORD := by
    simp only [WORD]; omega
  have hret : (((cpu.PC + 2) % WORD + 1) % WORD + (WORD - 1)) % WORD
      = (cpu.PC + 2) % WORD := by
    simp only [WORD]; omega
  have h1 : (cpu.PC + 1) % WORD < MAX_MEM := Nat.mod_lt _ (by decide)
  have h2 : (cpu.PC + 2) % WORD < MAX_MEM := Nat.mod_lt _ (by decide)
  have hlo : memory.Data ((cpu.PC + 1) % WORD) < 256 := hm _ h1
  have hhi : memory.Data ((cpu.PC + 2) % WORD) < 256 := hm _ h2
  have hword : (memory.Data ((cpu.PC + 1) % WORD) |||
      (memory.Data ((cpu.PC + 2) % WORD) <<< 8)) % WORD
      = memory.Data ((cpu.PC + 1) % WORD) + 256 * memory.Data ((cpu.PC + 2) % WORD) := by
    rw [lor_shift8 _ _ hlo]
    simp only [WORD] at hlo hhi ⊢; omega
  have hhigh : (cpu.PC + 2) % WORD / 256 % 256 = (cpu.PC + 2) % WORD / 256 := by
    simp only [WORD]; omega
  rw [ExecuteOne_JSR cpu Cycles memory hop (by simp only [MAX_MEM]; omega)]
  simp only [hpc2, hret, hword, and_ff, shr8, hB, Nat.mod_mod, hhigh]

theorem ExecuteOne_keeps_StackAt0100 (m0 : Mem) (cpu : CPU) (Cycles : Nat) (memory : Mem)
    (h : StackAt0100 m0 cpu memory) :
    ∃ st, cpu.ExecuteOne Cycles memory = some st ∧ StackAt0100 m0 st.cpu st.memory := by
  obtain ⟨hpc, hsp, hm, hfr⟩ := h
  have hW : WORD = 65536 := rfl
  have hlt : cpu.PC < MAX_MEM := by simp only [MAX_MEM]; omega
  have hread := Mem.read_of_lt memory cpu.PC hlt
  have hpc' : ((cpu.PC + 1) % WORD + 1) % WORD < WORD := Nat.mod_lt _ (by decide)
  by_cases c1 : memory.Data cpu.PC = INS_LDA_IM
  · rw [c1] at hread
    exact ⟨_, ExecuteOne_LDA_IM cpu Cycles memory hread, hpc', hsp, hm, hfr⟩
  by_cases c2 : memory.Data cpu.PC = INS_LDA_ZP
  · rw [c2] at hread
    have hzp : memory.Data ((cpu.PC + 1) % WORD) < MAX_MEM := by
      have h1 : (cpu.PC + 1) % WORD < MAX_MEM := Nat.mod_lt _ (by decide)
      have h2 := hm _ h1
      have h3 : BYTE ≤ MAX_MEM := by decide
      omega
    exact ⟨_, ExecuteOne_LDA_ZP cpu Cycles memory hread hzp, hpc', hsp, hm, hfr⟩
  by_cases c3 : memory.Data cpu.PC = INS_LDA_ZPX
  · rw [c3] at hread
    exact ⟨_, ExecuteOne_LDA_ZPX cpu Cycles memory hread, hpc', hsp, hm, hfr⟩
  by_cases c4 : memory.Data cpu.PC = INS_JSR
  · rw [c4] at hread
    have h1 : (cpu.PC + 1) % WORD < MAX_MEM := Nat.mod_lt _ (by decide)
    have h2 : (cpu.PC + 2) % WORD < MAX_MEM := Nat.mod_lt _ (by decide)
    have hlo : memory.Data ((cpu.PC + 1) % WORD) < 256 := hm _ h1
    have hhi : memory.Data ((cpu.PC + 2) % WORD) < 256 := hm _ h2
    refine ⟨_, ExecuteOne_JSR_bytes cpu Cycles memory hm hread (by omega), ?_, hsp, ?_, ?_⟩
    · show memory.Data ((cpu.PC + 1) % WORD) + 256 * memory.Data ((cpu.PC + 2) % WORD) < WORD
      rw [hW] at hlo hhi ⊢; omega
    · apply Mem.set_WF
      · apply Mem.set_WF _ _ _ hm
        exact Nat.mod_lt _ (by decide)
      · show (cpu.PC + 2) % WORD / 256 < 256
        rw [hW]; omega
    · intro i hi1 hi2
      show ((memory.set cpu.SP ((cpu.PC + 2) % WORD % 256)).set (cpu.SP + 1)
        ((cpu.PC + 2) % WORD / 256)).Data i = m0.Data i
      rw [Mem.set_Data, Mem.set_Data, hsp, if_neg hi2, if_neg hi1]
      exact hfr i hi1 hi2
  · exact ⟨_, ExecuteOne_unhandled cpu Cycles memory _ hread c1 c2 c3 c4,
      Nat.mod_lt _ (by decide), hsp, hm, hfr⟩

theorem ExecuteLoop_keeps_StackAt0100 (m0 : Mem) (fuel : Nat) :
    ∀ (count : Nat) (cpu : CPU) (Cycles : Nat) (memory : Mem), StackAt0100 m0 cpu memory →
      match CPU.ExecuteLoop fuel count cpu Cycles memory with
      | Run.fault => False
      | Run.running st => StackAt0100 m0 st.cpu st.memory
      | Run.halted _ cpu' memory' => StackAt0100 m0 cpu' memory' := by
  induction fuel with
  | zero =>
    intro count cpu Cycles memory h
    by_cases hc : 0 < Cycles
    · rw [ExecuteLoop_out_of_fuel _ _ _ _ hc]
      exact h
    · have h0 : Cycles = 0 := by omega
      subst h0
      rw [ExecuteLoop_zero_cycles]
      exact h
  | succ n ih =>
    intro count cpu Cycles memory h
    by_cases hc : 0 < Cycles
    · obtain ⟨st, hst, hinv⟩ := ExecuteOne_keeps_StackAt0100 m0 cpu Cycles memory h
      rw [ExecuteLoop_step _ _ _ _ _ st hc hst]
      exact ih _ _ _ _ hinv
    · have h0 : Cycles = 0 := by omega
      subst h0
      rw [ExecuteLoop_zero_cycles]
      exact h

/-- C15: starting from a freshly reset CPU (`PC = 0xFFFC`, `SP = 0x0100`) on any memory of
bytes, for every budget `Cycles` and every number `fuel` of executed instructions, `Execute`
never indexes the memory array outside `0..65535` (the run is never a fault, and every index
of a fetch, of `ReadByte` and of `WriteWord` is checked in the model); whether the loop is
still running after `fuel` instructions or has halted before, `SP` is still `0x0100`, `PC`
is below 65536, and no memory cell other than `0x0100` and `0x0101` differs from the start. -/
theorem execute_from_reset_stays_in_bounds (cpu0 : CPU) (mem0 memory : Mem)
    (Cycles fuel : Nat) (hm : memory.WF) :
    (cpu0.Reset mem0).1.Execute fuel Cycles memory ≠ Run.fault ∧
    (∀ st, (cpu0.Reset mem0).1.Execute fuel Cycles memory = Run.running st →
      st.cpu.SP = 0x0100 ∧ st.cpu.PC < 65536 ∧
      ∀ i, i ≠ 0x0100 → i ≠ 0x0101 → st.memory.Data i = memory.Data i) ∧
    (∀ k cpu' memory', (cpu0.Reset mem0).1.Execute fuel Cycles memory
        = Run.halted k cpu' memory' →
      cpu'.SP = 0x0100 ∧ cpu'.PC < 65536 ∧
      ∀ i, i ≠ 0x0100 → i ≠ 0x0101 → memory'.Data i = memory.Data i) := by
  have hinit : StackAt0100 memory (cpu0.Reset mem0).1 memory :=
    ⟨(show (0xFFFC : Nat) < WORD by decide), rfl, hm, fun _ _ _ => rfl⟩
  have h := ExecuteLoop_keeps_StackAt0100 memory fuel 0 _ Cycles memory hinit
  unfold CPU.Execute
  cases hr : CPU.ExecuteLoop fuel 0 (cpu0.Reset mem0).1 Cycles memory with
  | fault => rw [hr] at h; exact absurd h id
  | running st =>
    rw [hr] at h
    refine ⟨by simp, ?_, by simp⟩
    intro st' hst
    injection hst with hst
    subst hst
    exact ⟨h.2.1, h.1, h.2.2.2⟩
  | halted k cpu' memory' =>
    rw [hr] at h
    refine ⟨by simp, by simp, ?_⟩
    intro k' c' m' hst
    injection hst with h1 h2 h3
    subst h2 h3
    exact ⟨h.2.1, h.1, h.2.2.2⟩

/-- Witness of C15 on the third program of `main` with budget 9 and three instructions. -/
theorem execute_from_reset_stays_in_bounds_witness :
    (staleCPU.Reset staleMem).1.Execute 3 9 (mainJumpToSubroutine staleCPU staleMem).2
      ≠ Run.fault ∧
    (∀ st, (staleCPU.Reset staleMem).1.Execute 3 9 (mainJumpToSubroutine staleCPU staleMem).2
        = Run.running st →
      st.cpu.SP = 0x0100 ∧ st.cpu.PC < 65536 ∧
      ∀ i, i ≠ 0x0100 → i ≠ 0x0101 →
        st.memory.Data i = (mainJumpToSubroutine staleCPU staleMem).2.Data i) ∧
    (∀ k cpu' memory',
      (staleCPU.Reset staleMem).1.Execute 3 9 (mainJumpToSubroutine staleCPU staleMem).2
        = Run.halted k cpu' memory' →
      cpu'.SP = 0x0100 ∧ cpu'.PC < 65536 ∧
      ∀ i, i ≠ 0x0100 → i ≠ 0x0101 →
        memory'.Data i = (mainJumpToSubroutine staleCPU staleMem).2.Data i) :=
  execute_from_reset_stays_in_bounds staleCPU staleMem
    (mainJumpToSubroutine staleCPU staleMem).2 9 3 (mainJumpToSubroutine_WF _ _)

/-! ## A run that never halts -/

theorem jsrSelfLoop_WF (cpu : CPU) (mem : Mem) : (jsrSelfLoop cpu mem).2.WF := by
  unfold jsrSelfLoop
  exact Mem.set_WF _ _ _ (Mem.set_WF _ _ _ (Mem.set_WF _ _ _ (Mem.Initialise_WF _) (by decide))
    (by decide)) (by decide)

theorem jsrSelfLoop_Data (cpu : CPU) (mem : Mem) :
    (jsrSelfLoop cpu mem).2.Data 0xFFFC = 0x20 ∧ (jsrSelfLoop cpu mem).2.Data 0xFFFD = 0xFC ∧
      (jsrSelfLoop cpu mem).2.Data 0xFFFE = 0xFF := by
  simp [jsrSelfLoop, Mem.set_Data, INS_JSR]

theorem ExecuteOne_jsr_self (cpu : CPU) (Cycles : Nat) (memory : Mem)
    (hpc : cpu.PC = 0xFFFC) (hsp : cpu.SP = 0x0100) (hm : memory.WF)
    (h0 : memory.Data 0xFFFC = 0x20) (h1 : memory.Data 0xFFFD = 0xFC)
    (h2 : memory.Data 0xFFFE = 0xFF) :
    ∃ st, cpu.ExecuteOne Cycles memory = some st ∧ st.Cycles = subU32 Cycles 6 ∧
      st.cpu.PC = 0xFFFC ∧ st.cpu.SP = 0x0100 ∧ st.memory.WF ∧
      st.memory.Data 0xFFFC = 0x20 ∧ st.memory.Data 0xFFFD = 0xFC ∧
      st.memory.Data 0xFFFE = 0xFF := by
  have hop : memory.read cpu.PC = some INS_JSR := by
    rw [hpc, Mem.read_of_lt _ _ (by decide), h0]; rfl
  have e1 : (cpu.PC + 1) % WORD = 0xFFFD := by rw [hpc]; decide
  have e2 : (cpu.PC + 2) % WORD = 0xFFFE := by rw [hpc]; decide
  refine ⟨_, ExecuteOne_JSR_bytes cpu Cycles memory hm hop (by rw [hsp]; decide), rfl, ?_, hsp,
    ?_, ?_, ?_, ?_⟩
  · show memory.Data ((cpu.PC + 1) % WORD) + 256 * memory.Data ((cpu.PC + 2) % WORD) = 0xFFFC
    rw [e1, e2, h1, h2]
  · apply Mem.set_WF
    · apply Mem.set_WF _ _ _ hm
      exact Nat.mod_lt _ (by decide)
    · show (cpu.PC + 2) % WORD / 256 < 256
      rw [e2]; decide
  · show ((memory.set cpu.SP ((cpu.PC + 2) % WORD % 256)).set (cpu.SP + 1)
        ((cpu.PC + 2) % WORD / 256)).Data 0xFFFC = 0x20
    rw [Mem.set_Data, Mem.set_Data, hsp, if_neg (by decide), if_neg (by decide)]
    exact h0
  · show ((memory.set cpu.SP ((cpu.PC + 2) % WORD % 256)).set (cpu.SP + 1)
        ((cpu.PC + 2) % WORD / 256)).Data 0xFFFD = 0xFC
    rw [Mem.set_Data, Mem.set_Data, hsp, if_neg (by decide), if_neg (by decide)]
    exact h1
  · show ((memory.set cpu.SP ((cpu.PC + 2) % WORD % 256)).set (cpu.SP + 1)
        ((cpu.PC + 2) % WORD / 256)).Data 0xFFFE = 0xFF
    rw [Mem.set_Data, Mem.set_Data, hsp, if_neg (by decide), if_neg (by decide)]
    exact h2

theorem ExecuteLoop_jsr_self (fuel : Nat) :
    ∀ (count : Nat) (cpu : CPU) (Cycles : Nat) (memory : Mem),
      cpu.PC = 0xFFFC → cpu.SP = 0x0100 → memory.WF →
      memory.Data 0xFFFC = 0x20 → memory.Data 0xFFFD = 0xFC → memory.Data 0xFFFE = 0xFF →
      Cycles < U32 → Cycles % 2 = 1 →
      ∃ st, CPU.ExecuteLoop fuel count cpu Cycles memory = Run.running st ∧
        st.Cycles = (Cycles + fuel * (U32 - 6)) % U32 := by
  induction fuel with
  | zero =>
    intro count cpu Cycles memory _ _ _ _ _ _ hc hodd
    refine ⟨_, ExecuteLoop_out_of_fuel _ _ _ _ (by omega), ?_⟩
    show Cycles = (Cycles + 0 * (U32 - 6)) % U32
    simp only [U32] at hc ⊢; omega
  | succ n ih =>
    intro count cpu Cycles memory hpc hsp hm h0 h1 h2 hc hodd
    obtain ⟨st, hst, hcy, hpc', hsp', hm', h0', h1', h2'⟩ :=
      ExecuteOne_jsr_self cpu Cycles memory hpc hsp hm h0 h1 h2
    have hlt : st.Cycles < U32 := by
      rw [hcy]; exact Nat.mod_lt _ (by decide)
    have hodd' : st.Cycles % 2 = 1 := by
      rw [hcy]; simp only [subU32, U32]; omega
    obtain ⟨st', hrun, hcy'⟩ := ih (count + 1) st.cpu st.Cycles st.memory hpc' hsp' hm' h0' h1'
      h2' hlt hodd'
    refine ⟨st', ?_, ?_⟩
    · rw [ExecuteLoop_step _ _ _ _ _ st (by omega) hst]
      exact hrun
    · rw [hcy', hcy]
      simp only [subU32, U32]; omega

/-- C16: `Execute` does not halt on the JSR to itself. On a freshly reset CPU with `0x20`,
`0xFC`, `0xFF` at `0xFFFC..0xFFFE` and any odd budget `Cycles`, after any number `fuel` of
instructions the loop is still running: the `u32` counter is `Cycles - 6 * fuel` taken modulo
`2 ^ 32` (it wraps instead of going negative), it is odd, and so it is never `0`. -/
theorem jsr_self_loop_never_halts (cpu0 : CPU) (mem0 : Mem) (Cycles fuel : Nat)
    (hc : Cycles < U32) (hodd : Cycles % 2 = 1) :
    ∃ st, (jsrSelfLoop cpu0 mem0).1.Execute fuel Cycles (jsrSelfLoop cpu0 mem0).2
        = Run.running st ∧
      st.Cycles = (Cycles + fuel * (U32 - 6)) % U32 ∧ st.Cycles % 2 = 1 ∧ st.Cycles ≠ 0 := by
  obtain ⟨st, hrun, hcy⟩ := ExecuteLoop_jsr_self fuel 0 (jsrSelfLoop cpu0 mem0).1 Cycles
    (jsrSelfLoop cpu0 mem0).2 rfl rfl (jsrSelfLoop_WF _ _) (jsrSelfLoop_Data _ _).1
    (jsrSelfLoop_Data _ _).2.1 (jsrSelfLoop_Data _ _).2.2 hc hodd
  have hodd' : st.Cycles % 2 = 1 := by
    rw [hcy]; simp only [U32]; omega
  exact ⟨st, hrun, hcy, hodd', by omega⟩

/-- Witness of C16 with budget 1: after one instruction the counter has wrapped to
`4294967291`, after two to `4294967285`, and the loop is still running. -/
theorem jsr_self_loop_never_halts_witness :
    (∃ st, (jsrSelfLoop staleCPU staleMem).1.Execute 1 1 (jsrSelfLoop staleCPU staleMem).2
        = Run.running st ∧ st.Cycles = 4294967291) ∧
    (∃ st, (jsrSelfLoop staleCPU staleMem).1.Execute 2 1 (jsrSelfLoop staleCPU staleMem).2
        = Run.running st ∧ st.Cycles = 4294967285) := by
  constructor
  · obtain ⟨st, h1, h2, _, _⟩ := jsr_self_loop_never_halts staleCPU staleMem 1 1
      (by decide) (by decide)
    exact ⟨st, h1, by rw [h2]; decide⟩
  · obtain ⟨st, h1, h2, _, _⟩ := jsr_self_loop_never_halts staleCPU staleMem 1 2
      (by decide) (by decide)
    exact ⟨st, h1, by rw [h2]; decide⟩

/-! ## The jump-to-subroutine program end to end -/

theorem jsrProgram_Data (cpu : CPU) (mem : Mem) (t v i : Nat) :
    (jsrProgram cpu mem t v).2.Data i =
      if i = t + 1 then v else if i = t then 0xA9 else if i = 0xFFFE then t / 256
      else if i = 0xFFFD then t % 256 else if i = 0xFFFC then 0x20
      else if i < MAX_MEM then 0 else mem.Data i := by
  simp only [jsrProgram, CPU.Reset, Mem.set_Data, Mem.Initialise_Data, INS_JSR, INS_LDA_IM]

theorem jsrProgram_WF (cpu : CPU) (mem : Mem) (t v : Nat) (ht : t ≤ 0xFFF0) (hv : v < 256) :
    (jsrProgram cpu mem t v).2.WF := by
  unfold jsrProgram
  refine Mem.set_WF _ _ _ (Mem.set_WF _ _ _ (Mem.set_WF _ _ _ (Mem.set_WF _ _ _
    (Mem.set_WF _ _ _ (Mem.Initialise_WF _) (by decide)) ?_) ?_) (by decide)) hv
  · exact Nat.mod_lt _ (by decide)
  · show t / 256 < 256
    omega

theorem jsrProgram_steps (cpu0 : CPU) (mem0 : Mem) (t v : Nat)
    (ht1 : 0x0200 ≤ t) (ht2 : t ≤ 0xFFF0) (hv : v < 256) :
    ∃ st1 st2 st3,
      (jsrProgram cpu0 mem0 t v).1.ExecuteOne 9 (jsrProgram cpu0 mem0 t v).2 = some st1 ∧
      st1.Cycles = 3 ∧ st1.cpu.PC = t ∧
      st1.cpu.ExecuteOne st1.Cycles st1.memory = some st2 ∧
      st2.Cycles = 1 ∧ st2.cpu.PC = t + 2 ∧
      st2.cpu.ExecuteOne st2.Cycles st2.memory = some st3 ∧
      st3.Cycles = 0 ∧ st3.cpu.PC = t + 3 ∧ st3.cpu.SP = 0x0100 ∧
      st3.cpu.A = v ∧ st3.cpu.Z = (if v = 0 then 1 else 0) ∧ st3.cpu.N = v / 128 % 2 ∧
      st3.memory.read 0x0100 = some 0xFE ∧ st3.memory.read 0x0101 = some 0xFF := by
  have hM : MAX_MEM = 65536 := rfl
  have hW : WORD = 65536 := rfl
  have hwf := jsrProgram_WF cpu0 mem0 t v ht2 hv
  have hpc : (jsrProgram cpu0 mem0 t v).1.PC = 0xFFFC := rfl
  have hsp : (jsrProgram cpu0 mem0 t v).1.SP = 0x0100 := rfl
  have d0 : (jsrProgram cpu0 mem0 t v).2.Data 0xFFFC = 0x20 := by
    rw [jsrProgram_Data, if_neg (by omega), if_neg (by omega), if_neg (by decide),
      if_neg (by decide), if_pos rfl]
  have d1 : (jsrProgram cpu0 mem0 t v).2.Data 0xFFFD = t % 256 := by
    rw [jsrProgram_Data, if_neg (by omega), if_neg (by omega), if_neg (by decide), if_pos rfl]
  have d2 : (jsrProgram cpu0 mem0 t v).2.Data 0xFFFE = t / 256 := by
    rw [jsrProgram_Data, if_neg (by omega), if_neg (by omega), if_pos rfl]
  have dt : (jsrProgram cpu0 mem0 t v).2.Data t = 0xA9 := by
    rw [jsrProgram_Data, if_neg (by omega), if_pos rfl]
  have dt1 : (jsrProgram cpu0 mem0 t v).2.Data (t + 1) = v := by
    rw [jsrProgram_Data, if_pos rfl]
  have dt2 : (jsrProgram cpu0 mem0 t v).2.Data (t + 2) = 0 := by
    rw [jsrProgram_Data, if_neg (by omega), if_neg (by omega), if_neg (by omega),
      if_neg (by omega), if_neg (by omega), if_pos (by rw [hM]; omega)]
  -- the JSR at `0xFFFC`
  have hop1 : (jsrProgram cpu0 mem0 t v).2.read (jsrProgram cpu0 mem0 t v).1.PC
      = some INS_JSR := by
    rw [hpc, Mem.read_of_lt _ _ (by decide), d0]; rfl
  obtain ⟨st1, h1, hc1, hp1, hs1, hA1, hm1⟩ : ∃ st1,
      (jsrProgram cpu0 mem0 t v).1.ExecuteOne 9 (jsrProgram cpu0 mem0 t v).2 = some st1 ∧
      st1.Cycles = 3 ∧ st1.cpu.PC = t ∧ st1.cpu.SP = 0x0100 ∧
      st1.cpu.A = (jsrProgram cpu0 mem0 t v).1.A ∧
      st1.memory = ((jsrProgram cpu0 mem0 t v).2.set 0x0100 0xFE).set 0x0101 0xFF := by
    refine ⟨_, ExecuteOne_JSR_bytes _ 9 _ hwf hop1 (by rw [hsp]; decide),
      (show subU32 9 6 = 3 by decide), ?_, hsp, rfl, ?_⟩
    · show (jsrProgram cpu0 mem0 t v).2.Data (((jsrProgram cpu0 mem0 t v).1.PC + 1) % WORD)
          + 256 * (jsrProgram cpu0 mem0 t v).2.Data
            (((jsrProgram cpu0 mem0 t v).1.PC + 2) % WORD) = t
      rw [hpc, show (0xFFFC + 1) % WORD = 0xFFFD by decide,
        show (0xFFFC + 2) % WORD = 0xFFFE by decide, d1, d2]
      omega
    · show ((jsrProgram cpu0 mem0 t v).2.set (jsrProgram cpu0 mem0 t v).1.SP
          (((jsrProgram cpu0 mem0 t v).1.PC + 2) % WORD % 256)).set
          ((jsrProgram cpu0 mem0 t v).1.SP + 1)
          (((jsrProgram cpu0 mem0 t v).1.PC + 2) % WORD / 256)
        = ((jsrProgram cpu0 mem0 t v).2.set 0x0100 0xFE).set 0x0101 0xFF
      rw [hpc, hsp]
      rfl
  -- the LDA at `t`
  have m1 : ∀ i, i ≠ 0x0100 → i ≠ 0x0101 →
      st1.memory.Data i = (jsrProgram cpu0 mem0 t v).2.Data i := by
    intro i hi1 hi2
    rw [hm1, Mem.set_Data, Mem.set_Data, if_neg hi2, if_neg hi1]
  have hop2 : st1.memory.read st1.cpu.PC = some INS_LDA_IM := by
    rw [hp1, Mem.read_of_lt _ _ (by rw [hM]; omega), m1 t (by omega) (by omega), dt]; rfl
  obtain ⟨st2, h2, hc2, hp2, hs2, hA2, hZ2, hN2, hm2⟩ : ∃ st2,
      st1.cpu.ExecuteOne st1.Cycles st1.memory = some st2 ∧
      st2.Cycles = 1 ∧ st2.cpu.PC = t + 2 ∧ st2.cpu.SP = 0x0100 ∧ st2.cpu.A = v ∧
      st2.cpu.Z = (if v = 0 then 1 else 0) ∧ st2.cpu.N = v / 128 % 2 ∧
      st2.memory = st1.memory := by
    have hA : st1.memory.Data ((st1.cpu.PC + 1) % WORD) = v := by
      rw [hp1, show (t + 1) % WORD = t + 1 by rw [hW]; omega,
        m1 (t + 1) (by omega) (by omega), dt1]
    refine ⟨_, ExecuteOne_LDA_IM st1.cpu st1.Cycles st1.memory hop2, ?_, ?_, hs1, ?_, ?_, ?_,
      rfl⟩
    · show subU32 st1.Cycles 2 = 1
      rw [hc1]; decide
    · show ((st1.cpu.PC + 1) % WORD + 1) % WORD = t + 2
      rw [hp1, hW]; omega
    · simp [CPU.LDASetStatus, hA]
    · simp [CPU.LDASetStatus, hA]
    · simp only [CPU.LDASetStatus, hA]
      exact negative_bit v
  -- the unhandled opcode `0x00` at `t + 2`
  have hop3 : st2.memory.read st2.cpu.PC = some 0 := by
    rw [hp2, hm2, Mem.read_of_lt _ _ (by rw [hM]; omega), m1 (t + 2) (by omega) (by omega), dt2]
  refine ⟨st1, st2, _, h1, hc1, hp1, h2, hc2, hp2,
    ExecuteOne_unhandled st2.cpu st2.Cycles st2.memory 0 hop3 (by decide) (by decide)
      (by decide) (by decide), ?_, ?_, hs2, hA2, hZ2, hN2, ?_, ?_⟩
  · show subU32 st2.Cycles 1 = 0
    rw [hc2]; decide
  · show (st2.cpu.PC + 1) % WORD = t + 3
    rw [hp2, hW]; omega
  · show st2.memory.read 0x0100 = some 0xFE
    rw [hm2, hm1]; rfl
  · show st2.memory.read 0x0101 = some 0xFF
    rw [hm2, hm1]; rfl

/-- C17: the jump-to-subroutine program of `main`, for every target `t` with
`0x0200 ≤ t ≤ 0xFFF0` and every byte `v`. On a freshly reset CPU with `JSR t` at `0xFFFC` and
`LDA #v` at `t`, `Execute` with budget 9 runs the JSR (counter 9 to 3, `PC = t`), then the LDA
(counter 3 to 1, `PC = t + 2`), then the unhandled opcode `0x00` (counter 1 to 0), and halts
after exactly three instructions, for every bound of at least three instructions on the loop,
with `A = v`, `Z = (v == 0)`, `N` = bit 7 of `v`, `PC = t + 3`, `SP = 0x0100`,
`memory[0x0100] = 0xFE` and `memory[0x0101] = 0xFF`. -/
theorem jsr_program_budget_nine (cpu0 : CPU) (mem0 : Mem) (t v fuel : Nat)
    (ht1 : 0x0200 ≤ t) (ht2 : t ≤ 0xFFF0) (hv : v < 256) :
    (∃ st, (jsrProgram cpu0 mem0 t v).1.Execute 1 9 (jsrProgram cpu0 mem0 t v).2
        = Run.running st ∧ st.Cycles = 3 ∧ st.cpu.PC = t) ∧
    (∃ st, (jsrProgram cpu0 mem0 t v).1.Execute 2 9 (jsrProgram cpu0 mem0 t v).2
        = Run.running st ∧ st.Cycles = 1 ∧ st.cpu.PC = t + 2) ∧
    ∃ cpu' memory', (jsrProgram cpu0 mem0 t v).1.Execute (fuel + 3) 9
        (jsrProgram cpu0 mem0 t v).2 = Run.halted 3 cpu' memory' ∧
      cpu'.A = v ∧ cpu'.Z = (if v = 0 then 1 else 0) ∧ cpu'.N = v / 128 % 2 ∧
      cpu'.PC = t + 3 ∧ cpu'.SP = 0x0100 ∧
      memory'.read 0x0100 = some 0xFE ∧ memory'.read 0x0101 = some 0xFF := by
  obtain ⟨st1, st2, st3, h1, hc1, hp1, h2, hc2, hp2, h3, hc3, hp3, hs3, hA, hZ, hN, hm0, hm1⟩ :=
    jsrProgram_steps cpu0 mem0 t v ht1 ht2 hv
  refine ⟨⟨⟨st1.cpu, st1.Cycles, st1.memory⟩, ?_, hc1, hp1⟩,
    ⟨⟨st2.cpu, st2.Cycles, st2.memory⟩, ?_, hc2, hp2⟩,
    st3.cpu, st3.memory, ?_, hA, hZ, hN, hp3, hs3, hm0, hm1⟩
  · unfold CPU.Execute
    rw [ExecuteLoop_step _ _ _ _ _ st1 (by decide) h1,
      ExecuteLoop_out_of_fuel _ _ _ _ (by rw [hc1]; decide)]
  · unfold CPU.Execute
    rw [ExecuteLoop_step _ _ _ _ _ st1 (by decide) h1,
      ExecuteLoop_step _ _ _ _ _ st2 (by rw [hc1]; decide) h2,
      ExecuteLoop_out_of_fuel _ _ _ _ (by rw [hc2]; decide)]
  · unfold CPU.Execute
    rw [ExecuteLoop_step _ _ _ _ _ st1 (by decide) h1,
      ExecuteLoop_step _ _ _ _ _ st2 (by rw [hc1]; decide) h2,
      ExecuteLoop_step _ _ _ _ _ st3 (by rw [hc2]; decide) h3, hc3, ExecuteLoop_zero_cycles]

/-- Witness of C17 at `t = 0x4242`, `v = 0x84`, the program that `main` runs: `Execute` with
budget 9 halts after three instructions with `A = 0x84`, `Z = 0`, `N = 1`, `PC = 0x4245`,
`SP = 0x0100`, `memory[0x0100] = 0xFE` and `memory[0x0101] = 0xFF`. -/
theorem jsr_program_budget_nine_witness :
    jsrProgram staleCPU staleMem 0x4242 0x84 = mainJumpToSubroutine staleCPU staleMem ∧
    ∃ cpu' memory', (jsrProgram staleCPU staleMem 0x4242 0x84).1.Execute 3 9
        (jsrProgram staleCPU staleMem 0x4242 0x84).2 = Run.halted 3 cpu' memory' ∧
      cpu'.A = 0x84 ∧ cpu'.Z = 0 ∧ cpu'.N = 1 ∧ cpu'.PC = 0x4245 ∧ cpu'.SP = 0x0100 ∧
      memory'.read 0x0100 = some 0xFE ∧ memory'.read 0x0101 = some 0xFF :=
  ⟨rfl, (jsr_program_budget_nine staleCPU staleMem 0x4242 0x84 0 (by decide) (by decide)
    (by decide)).2.2⟩

end CPU6502
